import Mathlib

/-!
Shallow embedding of the simulation core of `src/GameLogic/duckV1.py`
(a single-screen duck-hunt game).  Python floats are modelled as `ℚ`,
Python ints as `Int`/`Nat`.  The sources of nondeterminism of the code
(`random.choice`, `random.randint`, `random.uniform`) and `math.sin`
are supplied through an `Oracle` of explicit functions, so every
definition stays executable.  The three game-over strings of the source
are modelled by the inductive `Reason` (with `Reason.noneYet` standing
for the initial empty string).
-/

namespace DuckHunt

/-- `WIN_W = 1280` from the source constants. -/
def WIN_W : Int := 1280

/-- `WIN_H = 720` from the source constants. -/
def WIN_H : Int := 720

/-- `MAX_DUCKS = 3` from the source constants. -/
def MAX_DUCKS : Nat := 3

/-- `STARTING_LIVES = 6` from the source constants. -/
def STARTING_LIVES : Int := 6

/-- `STARTING_AMMO = 10` from the source constants. -/
def STARTING_AMMO : Int := 10

/-- `GAME_DURATION = 60` seconds, from the source constants. -/
def GAME_DURATION : ℚ := 60

/-- `DUCK_BASE_SPEED = 180` px/s, from the source constants. -/
def DUCK_BASE_SPEED : ℚ := 180

/-- `SPEED_INCREMENT = 15`, from the source constants. -/
def SPEED_INCREMENT : ℚ := 15

/-- `MAX_SPEED = 500`, from the source constants. -/
def MAX_SPEED : ℚ := 500

/-- `Duck.FLAP_SPEED = 8` frames per wing phase. -/
def FLAP_SPEED : Int := 8

/-- One duck, mirroring the attributes set by `Duck.__init__` / `Duck.reset`. -/
structure Duck where
  speed : ℚ
  size : ℚ
  dir : Int
  x : ℚ
  y : ℚ
  wave_amp : ℚ
  wave_freq : ℚ
  base_y : ℚ
  time : ℚ
  alive : Bool
  hit : Bool
  hit_timer : Int
  flap_frame : Int
  wing_up : Bool
  deriving Repr, DecidableEq

/-- The random draws consumed by one call of `Duck.reset`:
`random.choice([-1, 1])`, `random.randint(60, int(WIN_H*0.55))`,
`random.uniform(30, 90)` and `random.uniform(1.5, 3.5)`. -/
structure ResetRand where
  dir : Int
  y : Int
  amp : ℚ
  freq : ℚ
  deriving Repr, DecidableEq

/-- `Duck.reset(self, speed)` from the source: re-randomises direction,
start position, wave parameters, and re-arms the lifecycle flags. -/
def Duck.reset (d : Duck) (speed : ℚ) (r : ResetRand) : Duck :=
  { d with
    speed := speed
    dir := r.dir
    x := if r.dir = 1 then -d.size else (WIN_W : ℚ) + d.size
    y := (r.y : ℚ)
    wave_amp := r.amp
    wave_freq := r.freq
    base_y := (r.y : ℚ)
    time := 0
    alive := true
    hit := false
    hit_timer := 0
    flap_frame := 0
    wing_up := true }

/-- `Duck.__init__(self, speed)`: sets `speed` and `size = 48`, then
calls `reset(speed)`. -/
def mkDuck (speed : ℚ) (r : ResetRand) : Duck :=
  Duck.reset
    { speed := speed, size := 48, dir := 1, x := 0, y := 0, wave_amp := 0,
      wave_freq := 0, base_y := 0, time := 0, alive := true, hit := false,
      hit_timer := 0, flap_frame := 0, wing_up := true }
    speed r

/-- The movement half of `Duck.update`: adopt the shared speed, advance
the wavy flight path (`time`, `x`, `y`) and the wing-flap counter. -/
def Duck.moveAdv (sin : ℚ → ℚ) (dt speed : ℚ) (d : Duck) : Duck :=
  { d with
    speed := speed
    time := d.time + dt
    x := d.x + (d.dir : ℚ) * speed * dt
    y := d.base_y + sin ((d.time + dt) * d.wave_freq) * d.wave_amp
    flap_frame := if FLAP_SPEED ≤ d.flap_frame + 1 then 0 else d.flap_frame + 1
    wing_up := if FLAP_SPEED ≤ d.flap_frame + 1 then !d.wing_up else d.wing_up }

/-- `Duck.update(self, dt, speed)` from the source, with `math.sin`
passed in as `sin`.  Early-returns when not `alive`; otherwise moves the
duck, and while `hit` decrements `hit_timer`, clearing `alive` when the
timer reaches zero. -/
def Duck.update (sin : ℚ → ℚ) (dt speed : ℚ) (d : Duck) : Duck :=
  if !d.alive then d
  else if d.hit then
    if d.hit_timer - 1 ≤ 0 then
      { d.moveAdv sin dt speed with hit_timer := d.hit_timer - 1, alive := false }
    else
      { d.moveAdv sin dt speed with hit_timer := d.hit_timer - 1 }
  else d.moveAdv sin dt speed

/-- `Duck.is_offscreen(self)`: `x < -size*2 or x > WIN_W + size*2`. -/
def Duck.is_offscreen (d : Duck) : Bool :=
  decide (d.x < -(d.size * 2)) || decide ((WIN_W : ℚ) + d.size * 2 < d.x)

/-- `Duck.collides(self, px, py)`: the generous hitbox test
`abs(px - x) < size*0.9 and abs(py - y) < size*0.6`. -/
def Duck.collides (d : Duck) (px py : ℚ) : Bool :=
  decide (|px - d.x| < d.size * (9 / 10)) && decide (|py - d.y| < d.size * (6 / 10))

/-- `Duck.shoot(self)`: returns `False` leaving the duck untouched
unless it is alive and not yet hit; otherwise marks it hit with a
20-frame `hit_timer` and returns `True`. -/
def Duck.shoot (d : Duck) : Bool × Duck :=
  if !d.alive || d.hit then (false, d)
  else (true, { d with hit := true, hit_timer := 20 })

/-- One particle, mirroring `Particle.__init__`. -/
structure Particle where
  x : ℚ
  y : ℚ
  vx : ℚ
  vy : ℚ
  life : ℚ
  max_life : ℚ
  r : Int
  deriving Repr, DecidableEq

/-- The random draws of `Particle.__init__` folded into the derived
quantities the constructor stores: velocity components, lifetime, and
radius (the colour is presentation-only and omitted). -/
structure PartRand where
  vx : ℚ
  vy : ℚ
  life : ℚ
  r : Int
  deriving Repr, DecidableEq

/-- `Particle.__init__(self, x, y)` with its random draws supplied. -/
def mkParticle (x y : ℚ) (pr : PartRand) : Particle :=
  { x := x, y := y, vx := pr.vx, vy := pr.vy, life := pr.life,
    max_life := pr.life, r := pr.r }

/-- `Particle.update(self, dt)`: position integrates velocity, gravity
adds `400*dt` to `vy` (after `y` used the old `vy`), and `life -= dt`. -/
def Particle.update (dt : ℚ) (p : Particle) : Particle :=
  { p with x := p.x + p.vx * dt, y := p.y + p.vy * dt,
           vy := p.vy + 400 * dt, life := p.life - dt }

/-- End-of-round reasons: the three `over_reason` strings of the source
(`TIME` up, `OUT OF AMMO`, `GAME OVER`), plus `noneYet` for the initial
empty string. -/
inductive Reason where
  | noneYet
  | timeUp
  | outOfAmmo
  | gameOver
  deriving Repr, DecidableEq

/-- The `state` dictionary built by `new_game()` inside `main()`. -/
structure GameState where
  score : Int
  lives : Int
  ammo : Int
  time_left : ℚ
  speed : ℚ
  ducks : List Duck
  particles : List Particle
  game_over : Bool
  over_reason : Reason
  mx : Int
  my : Int
  prev_btn : Bool
  deriving Repr, DecidableEq

/-- All nondeterministic draws a tick can consume, plus `math.sin`:
`resetR i` feeds the in-loop `duck.reset` of the duck at pool index `i`,
`restartR i` feeds the ducks of a `new_game()` restart, `hitP`/`muzP`
feed the death and muzzle particle bursts. -/
structure Oracle where
  sin : ℚ → ℚ
  resetR : Nat → ResetRand
  restartR : Nat → ResetRand
  hitP : Nat → PartRand
  muzP : Nat → PartRand

/-- The per-frame external input: `dt` from the clock, the relative
mouse motion, whether a fire click arrived, and whether R was pressed. -/
structure Input where
  dt : ℚ
  rel : Int × Int
  fire : Bool
  restart : Bool

/-- `new_game()` from the source. -/
def new_game (f : Nat → ResetRand) : GameState :=
  { score := 0
    lives := STARTING_LIVES
    ammo := STARTING_AMMO
    time_left := GAME_DURATION
    speed := DUCK_BASE_SPEED
    ducks := (List.range MAX_DUCKS).map (fun i => mkDuck DUCK_BASE_SPEED (f i))
    particles := []
    game_over := false
    over_reason := Reason.noneYet
    mx := WIN_W / 2
    my := WIN_H / 2
    prev_btn := false }

/-- The clamp `max(0, min(WIN_W - 1, ·))` applied to the crosshair x. -/
def clampX (x : Int) : Int := max 0 (min (WIN_W - 1) x)

/-- The clamp `max(0, min(WIN_H - 1, ·))` applied to the crosshair y. -/
def clampY (y : Int) : Int := max 0 (min (WIN_H - 1) y)

/-- The mouse section of the loop: accumulate `pygame.mouse.get_rel()`
into the clamped crosshair position. -/
def stepMouse (inp : Input) (s : GameState) : GameState :=
  { s with mx := clampX (s.mx + inp.rel.1), my := clampY (s.my + inp.rel.2) }

/-- The timer section: `time_left -= dt`; on reaching `<= 0` clamp to 0
and end the round with the TIME reason. -/
def stepTimer (dt : ℚ) (s : GameState) : GameState :=
  if s.time_left - dt ≤ 0 then
    { s with time_left := 0, game_over := true, over_reason := Reason.timeUp }
  else
    { s with time_left := s.time_left - dt }

/-- The guard of the shot-resolution loop body:
`duck.alive and not duck.hit and duck.collides(mx, my)`. -/
def duckMatch (px py : ℚ) (d : Duck) : Bool :=
  d.alive && !d.hit && d.collides px py

/-- The `for duck in state["ducks"]: ... break` scan of the shoot
section: shoots the first matching duck, returns the updated pool,
whether anything was hit, and the hit position (for the death burst). -/
def shootScan (px py : ℚ) : List Duck → List Duck × Bool × Option (ℚ × ℚ)
  | [] => ([], false, none)
  | d :: rest =>
    if duckMatch px py d then
      ((d.shoot).2 :: rest, true, some (d.x, d.y))
    else
      let r := shootScan px py rest
      (d :: r.1, r.2.1, r.2.2)

/-- A burst of `n` particles spawned at `(x, y)`. -/
def burst (n : Nat) (x y : ℚ) (f : Nat → PartRand) : List Particle :=
  (List.range n).map (fun k => mkParticle x y (f k))

/-- The hit branch of the shoot section: when the scan hit a duck at
`hp`, add the score reward, bump the shared speed (clamped to
`MAX_SPEED`), and append the 18-particle death burst. -/
def shotHit (o : Oracle) (hp : Option (ℚ × ℚ)) (s : GameState) : GameState :=
  match hp with
  | some hp =>
    { s with score := s.score + 100,
             speed := min (s.speed + SPEED_INCREMENT) MAX_SPEED,
             particles := s.particles ++ burst 18 hp.1 hp.2 o.hitP }
  | none => s

/-- The shoot section of the loop, guarded by
`shoot_this_frame and ammo > 0`: decrement ammo, scan for the first
hit duck (scoring, speed bump, 18-particle death burst), then always
add the 8-particle muzzle burst at the crosshair. -/
def stepShoot (o : Oracle) (fire : Bool) (s : GameState) : GameState :=
  if fire && decide (0 < s.ammo) then
    let r := shootScan (s.mx : ℚ) (s.my : ℚ) s.ducks
    let s3 := shotHit o r.2.2 { s with ammo := s.ammo - 1, ducks := r.1 }
    { s3 with particles := s3.particles ++ burst 8 (s.mx : ℚ) (s.my : ℚ) o.muzP }
  else s

/-- `sum(1 for d in ducks if d.alive and not d.hit)`. -/
def aliveCount (ds : List Duck) : Nat :=
  (ds.filter (fun d => d.alive && !d.hit)).length

/-- The out-of-ammo section: with `ammo == 0` and every pooled duck
alive and unhit, end the round with the OUT OF AMMO reason. -/
def stepAmmoCheck (s : GameState) : GameState :=
  if s.ammo = 0 ∧ aliveCount s.ducks = MAX_DUCKS then
    { s with game_over := true, over_reason := Reason.outOfAmmo }
  else s

/-- The body of the duck-update loop for the duck at pool index `i`:
advance it, and either charge an escape (life loss, possible game over,
in-place reset) or recycle a finished death animation. -/
def duckStep (o : Oracle) (dt : ℚ) (i : Nat) (s : GameState) (d : Duck) :
    GameState × Duck :=
  let d1 := d.update o.sin dt s.speed
  if d1.is_offscreen && !d1.hit then
    ( if s.lives - 1 ≤ 0 then
        { s with lives := 0, game_over := true, over_reason := Reason.gameOver }
      else
        { s with lives := s.lives - 1 },
      d1.reset s.speed (o.resetR i) )
  else if !d1.alive then
    (s, d1.reset s.speed (o.resetR i))
  else
    (s, d1)

/-- The duck-update loop, folded from pool index `i` on. -/
def duckFold (o : Oracle) (dt : ℚ) : Nat → GameState → List Duck →
    GameState × List Duck
  | _, s, [] => (s, [])
  | i, s, d :: rest =>
    let p := duckStep o dt i s d
    let q := duckFold o dt (i + 1) p.1 rest
    (q.1, p.2 :: q.2)

/-- The duck-update section of the loop. -/
def stepDucks (o : Oracle) (dt : ℚ) (s : GameState) : GameState :=
  let r := duckFold o dt 0 s s.ducks
  { r.1 with ducks := r.2 }

/-- The particle section: first drop every particle with `life <= 0`,
then advance the survivors by `dt` (the order of the source). -/
def stepParticles (dt : ℚ) (s : GameState) : GameState :=
  { s with particles :=
      (s.particles.filter (fun p => decide (0 < p.life))).map (Particle.update dt) }

/-- One pass of the game-logic part of the main loop, for a state that
is not game over at the start of the frame: mouse, timer, shoot,
out-of-ammo check, duck updates, particle updates, in source order. -/
def tickCore (o : Oracle) (inp : Input) (s : GameState) : GameState :=
  stepParticles inp.dt
    (stepDucks o inp.dt
      (stepAmmoCheck
        (stepShoot o inp.fire
          (stepTimer inp.dt
            (stepMouse inp s)))))

/-- One full frame of the main loop: an R press while game over replaces
the state with `new_game()`; a state that is (still) game over skips the
frame (`continue` in the source); otherwise run the game logic. -/
def tick (o : Oracle) (inp : Input) (s : GameState) : GameState :=
  let s1 := if s.game_over && inp.restart then new_game o.restartR else s
  if s1.game_over then s1 else tickCore o inp s1

/-- The states the main loop can be in at the top of a frame: a fresh
`new_game()` state, or the result of a frame from a reachable state. -/
inductive Reachable : GameState → Prop
  | init (f : Nat → ResetRand) : Reachable (new_game f)
  | step (o : Oracle) (inp : Input) (s : GameState) :
      Reachable s → Reachable (tick o inp s)

/-- The duck produced by one pass of the duck-update loop body for the
duck at pool index `i` (the state-independent part of `duckStep`: the
only piece of the round state it reads is the shared speed). -/
def duckAdv (o : Oracle) (dt speed : ℚ) (i : Nat) (d : Duck) : Duck :=
  let d1 := d.update o.sin dt speed
  if d1.is_offscreen && !d1.hit then d1.reset speed (o.resetR i)
  else if !d1.alive then d1.reset speed (o.resetR i)
  else d1

/-- The ducks produced by the duck-update loop from pool index `i` on. -/
def duckAdvList (o : Oracle) (dt speed : ℚ) : Nat → List Duck → List Duck
  | _, [] => []
  | i, d :: rest => duckAdv o dt speed i d :: duckAdvList o dt speed (i + 1) rest

/-- Whether a duck escapes this tick: after advancement it is off-screen
and not hit (the guard of the life-loss branch of the source loop). -/
def escapedB (o : Oracle) (dt speed : ℚ) (d : Duck) : Bool :=
  (d.update o.sin dt speed).is_offscreen && !(d.update o.sin dt speed).hit

/-- How many ducks of the pool escape this tick. -/
def escCount (o : Oracle) (dt speed : ℚ) (ds : List Duck) : Nat :=
  (ds.filter (escapedB o dt speed)).length

/-- The lives counter after `k` sequential escape charges, each one
doing `lives -= 1` and clamping at zero exactly as the source does. -/
def livesAfter (l : Int) : Nat → Int
  | 0 => l
  | k + 1 => livesAfter (if l - 1 ≤ 0 then 0 else l - 1) k

/-- The game-over flag after `k` sequential escape charges. -/
def goAfter (l : Int) (go : Bool) : Nat → Bool
  | 0 => go
  | k + 1 =>
    goAfter (if l - 1 ≤ 0 then 0 else l - 1) (go || decide (l - 1 ≤ 0)) k

/-- The end reason after `k` sequential escape charges. -/
def reasonAfter (l : Int) (rs : Reason) : Nat → Reason
  | 0 => rs
  | k + 1 =>
    reasonAfter (if l - 1 ≤ 0 then 0 else l - 1)
      (if l - 1 ≤ 0 then Reason.gameOver else rs) k

/-- The pool index of the first duck the shot scan would select: the
first duck in pool order that is alive, unhit, and collides with the
crosshair. -/
def firstMatchIdx (px py : ℚ) : List Duck → Option Nat
  | [] => none
  | d :: rest =>
    if duckMatch px py d then some 0
    else (firstMatchIdx px py rest).map (· + 1)

/-- The particles a frame's shoot section appends: the 18-particle death
burst at the hit duck (when the scan hits) followed by the 8-particle
muzzle burst at the crosshair, or nothing when no shot fires. -/
def shotBursts (o : Oracle) (fire : Bool) (s : GameState) : List Particle :=
  if fire && decide (0 < s.ammo) then
    (match (shootScan (s.mx : ℚ) (s.my : ℚ) s.ducks).2.2 with
     | some hp => burst 18 hp.1 hp.2 o.hitP
     | none => []) ++ burst 8 (s.mx : ℚ) (s.my : ℚ) o.muzP
  else []

/-- A fixed reset draw used for concrete evaluations. -/
def rr0 : ResetRand := { dir := 1, y := 100, amp := 30, freq := 2 }

/-- A fixed particle draw used for concrete evaluations. -/
def pr0 : PartRand := { vx := 0, vy := 0, life := 1 / 4, r := 3 }

/-- A fixed oracle (sine stubbed to 0, constant random draws) used for
concrete evaluations. -/
def o0 : Oracle :=
  { sin := fun _ => 0, resetR := fun _ => rr0, restartR := fun _ => rr0,
    hitP := fun _ => pr0, muzP := fun _ => pr0 }

/-- Default duck handed to `List.getD`. -/
def duck0 : Duck := mkDuck 0 rr0

/-- A flying duck parked at `(x, y)` moving right at 180 px/s, used to
build concrete states. -/
def duckAt (x y : ℚ) : Duck :=
  { speed := 180, size := 48, dir := 1, x := x, y := y, wave_amp := 30,
    wave_freq := 2, base_y := y, time := 0, alive := true, hit := false,
    hit_timer := 0, flap_frame := 0, wing_up := true }

/-- A mid-round state: 5 ammo, one duck sitting exactly under the
crosshair, and only 1/100 s left on the clock. -/
def sC6 : GameState :=
  { score := 0, lives := 6, ammo := 5, time_left := 1 / 100, speed := 180,
    ducks := [duckAt 640 360], particles := [], game_over := false,
    over_reason := Reason.noneYet, mx := 640, my := 360, prev_btn := false }

/-- A one-second frame carrying a fire trigger and no pointer motion. -/
def inpC6 : Input := { dt := 1, rel := (0, 0), fire := true, restart := false }

/-- A state with no ammo, three flying ducks mid-field, and 1/100 s on
the clock. -/
def sC3 : GameState :=
  { score := 0, lives := 6, ammo := 0, time_left := 1 / 100, speed := 180,
    ducks := [duckAt 300 300, duckAt 400 300, duckAt 500 300],
    particles := [], game_over := false, over_reason := Reason.noneYet,
    mx := 640, my := 360, prev_btn := false }

/-- A one-second frame with no fire and no pointer motion. -/
def inpQuiet : Input := { dt := 1, rel := (0, 0), fire := false, restart := false }

/-- A state with no ammo, one life, and three flying ducks, the first
of which will cross the off-screen threshold this frame. -/
def sC2 : GameState :=
  { score := 0, lives := 1, ammo := 0, time_left := 50, speed := 180,
    ducks := [duckAt 1300 300, duckAt 400 300, duckAt 500 300],
    particles := [], game_over := false, over_reason := Reason.noneYet,
    mx := 640, my := 360, prev_btn := false }

/-- A state with no ammo, six lives, and three flying ducks mid-field. -/
def sC2w : GameState :=
  { sC2 with lives := 6, ducks := [duckAt 300 300, duckAt 400 300, duckAt 500 300] }

/-- A live mid-round state with ammo and a duck under the crosshair. -/
def sC1w : GameState := { sC6 with time_left := 50 }

/-- An already-ended state. -/
def sEnded : GameState :=
  { sC2 with game_over := true, over_reason := Reason.gameOver, lives := 0 }

/-- A particle with only 1/10 s of life left. -/
def pLow : Particle := mkParticle 0 0 { vx := 0, vy := 0, life := 1 / 10, r := 3 }

/-- A live state holding one nearly expired particle. -/
def sC9 : GameState :=
  { score := 0, lives := 6, ammo := 10, time_left := 50, speed := 180,
    ducks := [duckAt 300 300], particles := [pLow], game_over := false,
    over_reason := Reason.noneYet, mx := 640, my := 360, prev_btn := false }

/-- A state with one life, one duck about to escape. -/
def sC7w : GameState :=
  { score := 0, lives := 6, ammo := 4, time_left := 50, speed := 180,
    ducks := [duckAt 1300 300], particles := [], game_over := false,
    over_reason := Reason.noneYet, mx := 640, my := 360, prev_btn := false }

/-- A flying duck centered at the origin, for the hitbox geometry. -/
def dC5 : Duck := duckAt 0 0

/-- The conjunction claimed of a fired shot while the round is playing
with ammo available: ammo drops by exactly one, score rises by exactly
0 or 100, the pool size is unchanged, at most the first matching duck
(pool-index order) is hit, and every other duck that was flying is
still flying after the tick. -/
def C1prop (o : Oracle) (inp : Input) (s : GameState) : Prop :=
  (tick o inp s).ammo = s.ammo - 1 ∧
  ((tick o inp s).score = s.score ∨ (tick o inp s).score = s.score + 100) ∧
  (tick o inp s).ducks.length = s.ducks.length ∧
  (∀ i,
    firstMatchIdx ((clampX (s.mx + inp.rel.1) : Int) : ℚ)
        ((clampY (s.my + inp.rel.2) : Int) : ℚ) s.ducks = some i →
      (tick o inp s).score = s.score + 100 ∧
      ((tick o inp s).ducks.getD i duck0).hit = true ∧
      (∀ j, j ≠ i →
        (s.ducks.getD j duck0).alive = true →
        (s.ducks.getD j duck0).hit = false →
        ((tick o inp s).ducks.getD j duck0).alive = true ∧
        ((tick o inp s).ducks.getD j duck0).hit = false)) ∧
  (firstMatchIdx ((clampX (s.mx + inp.rel.1) : Int) : ℚ)
      ((clampY (s.my + inp.rel.2) : Int) : ℚ) s.ducks = none →
    (tick o inp s).score = s.score ∧
    (∀ j,
      (s.ducks.getD j duck0).alive = true →
      (s.ducks.getD j duck0).hit = false →
      ((tick o inp s).ducks.getD j duck0).alive = true ∧
      ((tick o inp s).ducks.getD j duck0).hit = false))

/-- The conjunction claimed of the duck-update phase: pool size is
constant; lives drop by one per flying escaped duck, clamped at zero;
staying positive leaves the phase and reason untouched, while depletion
ends the round with the GAME OVER reason; an escaped duck was not hit
and is respawned in place at the shared speed; a hit duck never counts
as escaped. -/
def C7prop (o : Oracle) (dt : ℚ) (s : GameState) : Prop :=
  (stepDucks o dt s).ducks.length = s.ducks.length ∧
  (stepDucks o dt s).lives = max 0 (s.lives - escCount o dt s.speed s.ducks) ∧
  ((escCount o dt s.speed s.ducks : Int) < s.lives →
    (stepDucks o dt s).lives = s.lives - escCount o dt s.speed s.ducks ∧
    (stepDucks o dt s).game_over = s.game_over ∧
    (stepDucks o dt s).over_reason = s.over_reason) ∧
  (0 < s.lives → s.lives ≤ (escCount o dt s.speed s.ducks : Int) →
    (stepDucks o dt s).lives = 0 ∧
    (stepDucks o dt s).game_over = true ∧
    (stepDucks o dt s).over_reason = Reason.gameOver) ∧
  (∀ j, j < s.ducks.length →
    escapedB o dt s.speed (s.ducks.getD j duck0) = true →
      ((s.ducks.getD j duck0).update o.sin dt s.speed).hit = false ∧
      ((s.ducks.getD j duck0).update o.sin dt s.speed).alive = true ∧
      (stepDucks o dt s).ducks.getD j duck0 =
        ((s.ducks.getD j duck0).update o.sin dt s.speed).reset s.speed
          (o.resetR j)) ∧
  (∀ j, j < s.ducks.length →
    ((s.ducks.getD j duck0).update o.sin dt s.speed).hit = true →
      escapedB o dt s.speed (s.ducks.getD j duck0) = false)

/-- The conjunction claimed of the particle phase of one live tick: the
post-tick set is exactly the pre-advancement set (old particles plus the
bursts of this frame's shot) pruned of lives `<= 0` and then advanced by
`dt`, and every surviving particle came from a particle with positive
life and has its life decreased by exactly `dt`. -/
def C9prop (o : Oracle) (inp : Input) (s : GameState) : Prop :=
  (tick o inp s).particles =
    ((s.particles ++
        shotBursts o inp.fire (stepTimer inp.dt (stepMouse inp s))).filter
      (fun p => decide (0 < p.life))).map (Particle.update inp.dt) ∧
  (∀ p ∈ (tick o inp s).particles, ∃ q,
    0 < q.life ∧ p = Particle.update inp.dt q ∧
    p.life = q.life - inp.dt ∧ p.life ≤ q.life)

/-! ## Duck-level lemmas -/

theorem update_hit_eq (sn : ℚ → ℚ) (dt sp : ℚ) (d : Duck) :
    (d.update sn dt sp).hit = d.hit := by
  unfold Duck.update
  split
  · rfl
  · split
    · split <;> rfl
    · rfl

theorem update_alive_of_hit_false (sn : ℚ → ℚ) (dt sp : ℚ) (d : Duck)
    (h : d.hit = false) : (d.update sn dt sp).alive = d.alive := by
  unfold Duck.update
  split
  · rfl
  · rw [if_neg (by simp [h])]
    rfl

theorem update_shot (sn : ℚ → ℚ) (dt sp : ℚ) (d : Duck) (ha : d.alive = true)
    (hh : d.hit = true) (ht : 1 < d.hit_timer) :
    (d.update sn dt sp).alive = true ∧ (d.update sn dt sp).hit = true ∧
      (d.update sn dt sp).hit_timer = d.hit_timer - 1 := by
  unfold Duck.update
  rw [if_neg (by simp [ha]), if_pos hh, if_neg (by omega)]
  exact ⟨ha, hh, rfl⟩

theorem reset_alive (d : Duck) (sp : ℚ) (r : ResetRand) :
    (d.reset sp r).alive = true := rfl

theorem reset_hit (d : Duck) (sp : ℚ) (r : ResetRand) :
    (d.reset sp r).hit = false := rfl

theorem shoot_of_match (px py : ℚ) (d : Duck) (h : duckMatch px py d = true) :
    d.shoot = (true, { d with hit := true, hit_timer := 20 }) := by
  unfold duckMatch at h
  simp only [Bool.and_eq_true, Bool.not_eq_true'] at h
  unfold Duck.shoot
  rw [if_neg (by simp [h.1.1, h.1.2])]

theorem duckAdv_alive (o : Oracle) (dt sp : ℚ) (i : Nat) (d : Duck) :
    (duckAdv o dt sp i d).alive = true := by
  simp only [duckAdv]
  split
  · exact rfl
  · split
    · exact rfl
    · rename_i h
      simpa using h

theorem duckAdv_hit_of_flying (o : Oracle) (dt sp : ℚ) (i : Nat) (d : Duck)
    (hh : d.hit = false) : (duckAdv o dt sp i d).hit = false := by
  simp only [duckAdv]
  split
  · exact rfl
  · split
    · exact rfl
    · rw [update_hit_eq]
      exact hh

theorem duckAdv_hit_of_shot (o : Oracle) (dt sp : ℚ) (i : Nat) (d : Duck)
    (ha : d.alive = true) (hh : d.hit = true) (ht : 1 < d.hit_timer) :
    (duckAdv o dt sp i d).hit = true := by
  obtain ⟨h1, h2, _⟩ := update_shot o.sin dt sp d ha hh ht
  simp only [duckAdv]
  rw [if_neg (by simp [h2]), if_neg (by simp [h1])]
  exact h2

theorem escapedB_elim (o : Oracle) (dt sp : ℚ) (d : Duck)
    (h : escapedB o dt sp d = true) :
    (d.update o.sin dt sp).is_offscreen = true ∧
      (d.update o.sin dt sp).hit = false := by
  unfold escapedB at h
  simpa using h

/-! ## Projection lemmas for the loop sections -/

theorem stepTimer_ammo (dt : ℚ) (s : GameState) :
    (stepTimer dt s).ammo = s.ammo := by
  unfold stepTimer; split <;> rfl

theorem stepTimer_score (dt : ℚ) (s : GameState) :
    (stepTimer dt s).score = s.score := by
  unfold stepTimer; split <;> rfl

theorem stepTimer_lives (dt : ℚ) (s : GameState) :
    (stepTimer dt s).lives = s.lives := by
  unfold stepTimer; split <;> rfl

theorem stepTimer_speed (dt : ℚ) (s : GameState) :
    (stepTimer dt s).speed = s.speed := by
  unfold stepTimer; split <;> rfl

theorem stepTimer_ducks (dt : ℚ) (s : GameState) :
    (stepTimer dt s).ducks = s.ducks := by
  unfold stepTimer; split <;> rfl

theorem stepTimer_particles (dt : ℚ) (s : GameState) :
    (stepTimer dt s).particles = s.particles := by
  unfold stepTimer; split <;> rfl

theorem stepTimer_mx (dt : ℚ) (s : GameState) :
    (stepTimer dt s).mx = s.mx := by
  unfold stepTimer; split <;> rfl

theorem stepTimer_my (dt : ℚ) (s : GameState) :
    (stepTimer dt s).my = s.my := by
  unfold stepTimer; split <;> rfl

theorem stepTimer_time (dt : ℚ) (s : GameState) :
    (stepTimer dt s).time_left =
      if s.time_left - dt ≤ 0 then 0 else s.time_left - dt := by
  unfold stepTimer; split <;> rename_i h <;> simp [h]

theorem stepTimer_go (dt : ℚ) (s : GameState) :
    (stepTimer dt s).game_over =
      if s.time_left - dt ≤ 0 then true else s.game_over := by
  unfold stepTimer; split <;> rename_i h <;> simp [h]

theorem stepTimer_reason (dt : ℚ) (s : GameState) :
    (stepTimer dt s).over_reason =
      if s.time_left - dt ≤ 0 then Reason.timeUp else s.over_reason := by
  unfold stepTimer; split <;> rename_i h <;> simp [h]

theorem shotHit_ammo (o : Oracle) (hp : Option (ℚ × ℚ)) (s : GameState) :
    (shotHit o hp s).ammo = s.ammo := by cases hp <;> rfl

theorem shotHit_lives (o : Oracle) (hp : Option (ℚ × ℚ)) (s : GameState) :
    (shotHit o hp s).lives = s.lives := by cases hp <;> rfl

theorem shotHit_time (o : Oracle) (hp : Option (ℚ × ℚ)) (s : GameState) :
    (shotHit o hp s).time_left = s.time_left := by cases hp <;> rfl

theorem shotHit_ducks (o : Oracle) (hp : Option (ℚ × ℚ)) (s : GameState) :
    (shotHit o hp s).ducks = s.ducks := by cases hp <;> rfl

theorem shotHit_go (o : Oracle) (hp : Option (ℚ × ℚ)) (s : GameState) :
    (shotHit o hp s).game_over = s.game_over := by cases hp <;> rfl

theorem shotHit_reason (o : Oracle) (hp : Option (ℚ × ℚ)) (s : GameState) :
    (shotHit o hp s).over_reason = s.over_reason := by cases hp <;> rfl

theorem shotHit_mx (o : Oracle) (hp : Option (ℚ × ℚ)) (s : GameState) :
    (shotHit o hp s).mx = s.mx := by cases hp <;> rfl

theorem shotHit_my (o : Oracle) (hp : Option (ℚ × ℚ)) (s : GameState) :
    (shotHit o hp s).my = s.my := by cases hp <;> rfl

theorem shotHit_score (o : Oracle) (hp : Option (ℚ × ℚ)) (s : GameState) :
    (shotHit o hp s).score =
      match hp with
      | some _ => s.score + 100
      | none => s.score := by cases hp <;> rfl

theorem shotHit_speed (o : Oracle) (hp : Option (ℚ × ℚ)) (s : GameState) :
    (shotHit o hp s).speed =
      match hp with
      | some _ => min (s.speed + SPEED_INCREMENT) MAX_SPEED
      | none => s.speed := by cases hp <;> rfl

theorem shotHit_particles (o : Oracle) (hp : Option (ℚ × ℚ)) (s : GameState) :
    (shotHit o hp s).particles =
      s.particles ++
        (match hp with
         | some hp => burst 18 hp.1 hp.2 o.hitP
         | none => []) := by cases hp <;> simp [shotHit]

theorem stepMouse_ammo (inp : Input) (s : GameState) :
    (stepMouse inp s).ammo = s.ammo := rfl

theorem stepMouse_ducks (inp : Input) (s : GameState) :
    (stepMouse inp s).ducks = s.ducks := rfl

theorem stepMouse_mx (inp : Input) (s : GameState) :
    (stepMouse inp s).mx = clampX (s.mx + inp.rel.1) := rfl

theorem stepMouse_my (inp : Input) (s : GameState) :
    (stepMouse inp s).my = clampY (s.my + inp.rel.2) := rfl

theorem stepShoot_ammo (o : Oracle) (f : Bool) (s : GameState) :
    (stepShoot o f s).ammo =
      if f && decide (0 < s.ammo) then s.ammo - 1 else s.ammo := by
  simp only [stepShoot]
  split <;> rename_i h <;> simp [h, shotHit_ammo]

theorem stepShoot_ducks (o : Oracle) (f : Bool) (s : GameState) :
    (stepShoot o f s).ducks =
      if f && decide (0 < s.ammo) then
        (shootScan (s.mx : ℚ) (s.my : ℚ) s.ducks).1
      else s.ducks := by
  simp only [stepShoot]
  split <;> rename_i h <;> simp [h, shotHit_ducks]

theorem stepShoot_score (o : Oracle) (f : Bool) (s : GameState) :
    (stepShoot o f s).score =
      if f && decide (0 < s.ammo) then
        match (shootScan (s.mx : ℚ) (s.my : ℚ) s.ducks).2.2 with
        | some _ => s.score + 100
        | none => s.score
      else s.score := by
  simp only [stepShoot]
  split
  · rcases hsc : (shootScan (s.mx : ℚ) (s.my : ℚ) s.ducks).2.2 with _ | hp <;>
      simp [hsc, shotHit_score]
  · rfl

theorem stepShoot_speed (o : Oracle) (f : Bool) (s : GameState) :
    (stepShoot o f s).speed =
      if f && decide (0 < s.ammo) then
        match (shootScan (s.mx : ℚ) (s.my : ℚ) s.ducks).2.2 with
        | some _ => min (s.speed + SPEED_INCREMENT) MAX_SPEED
        | none => s.speed
      else s.speed := by
  simp only [stepShoot]
  split
  · rcases hsc : (shootScan (s.mx : ℚ) (s.my : ℚ) s.ducks).2.2 with _ | hp <;>
      simp [hsc, shotHit_speed]
  · rfl

theorem stepShoot_lives (o : Oracle) (f : Bool) (s : GameState) :
    (stepShoot o f s).lives = s.lives := by
  simp only [stepShoot]
  split <;> simp [shotHit_lives]

theorem stepShoot_time (o : Oracle) (f : Bool) (s : GameState) :
    (stepShoot o f s).time_left = s.time_left := by
  simp only [stepShoot]
  split <;> simp [shotHit_time]

theorem stepShoot_go (o : Oracle) (f : Bool) (s : GameState) :
    (stepShoot o f s).game_over = s.game_over := by
  simp only [stepShoot]
  split <;> simp [shotHit_go]

theorem stepShoot_reason (o : Oracle) (f : Bool) (s : GameState) :
    (stepShoot o f s).over_reason = s.over_reason := by
  simp only [stepShoot]
  split <;> simp [shotHit_reason]

theorem stepShoot_mx (o : Oracle) (f : Bool) (s : GameState) :
    (stepShoot o f s).mx = s.mx := by
  simp only [stepShoot]
  split <;> simp [shotHit_mx]

theorem stepShoot_my (o : Oracle) (f : Bool) (s : GameState) :
    (stepShoot o f s).my = s.my := by
  simp only [stepShoot]
  split <;> simp [shotHit_my]

theorem stepShoot_particles (o : Oracle) (f : Bool) (s : GameState) :
    (stepShoot o f s).particles = s.particles ++ shotBursts o f s := by
  simp only [stepShoot, shotBursts]
  split <;> rename_i h
  · show (shotHit _ _ _).particles ++ _ = _
    rw [shotHit_particles]
    rcases (shootScan (s.mx : ℚ) (s.my : ℚ) s.ducks).2.2 with _ | hp <;>
      simp [List.append_assoc]
  · simp

theorem stepShoot_of_no_ammo (o : Oracle) (f : Bool) (s : GameState)
    (h : s.ammo = 0) : stepShoot o f s = s := by
  simp only [stepShoot]
  rw [if_neg]
  simp [h]

theorem stepAmmoCheck_ammo (s : GameState) :
    (stepAmmoCheck s).ammo = s.ammo := by
  unfold stepAmmoCheck; split <;> rfl

theorem stepAmmoCheck_score (s : GameState) :
    (stepAmmoCheck s).score = s.score := by
  unfold stepAmmoCheck; split <;> rfl

theorem stepAmmoCheck_lives (s : GameState) :
    (stepAmmoCheck s).lives = s.lives := by
  unfold stepAmmoCheck; split <;> rfl

theorem stepAmmoCheck_time (s : GameState) :
    (stepAmmoCheck s).time_left = s.time_left := by
  unfold stepAmmoCheck; split <;> rfl

theorem stepAmmoCheck_speed (s : GameState) :
    (stepAmmoCheck s).speed = s.speed := by
  unfold stepAmmoCheck; split <;> rfl

theorem stepAmmoCheck_ducks (s : GameState) :
    (stepAmmoCheck s).ducks = s.ducks := by
  unfold stepAmmoCheck; split <;> rfl

theorem stepAmmoCheck_particles (s : GameState) :
    (stepAmmoCheck s).particles = s.particles := by
  unfold stepAmmoCheck; split <;> rfl

theorem stepAmmoCheck_mx (s : GameState) :
    (stepAmmoCheck s).mx = s.mx := by
  unfold stepAmmoCheck; split <;> rfl

theorem stepAmmoCheck_my (s : GameState) :
    (stepAmmoCheck s).my = s.my := by
  unfold stepAmmoCheck; split <;> rfl

theorem stepAmmoCheck_go (s : GameState) :
    (stepAmmoCheck s).game_over =
      if s.ammo = 0 ∧ aliveCount s.ducks = MAX_DUCKS then true
      else s.game_over := by
  unfold stepAmmoCheck; split <;> rename_i h <;> simp [h]

theorem stepAmmoCheck_reason (s : GameState) :
    (stepAmmoCheck s).over_reason =
      if s.ammo = 0 ∧ aliveCount s.ducks = MAX_DUCKS then Reason.outOfAmmo
      else s.over_reason := by
  unfold stepAmmoCheck; split <;> rename_i h <;> simp [h]

theorem stepParticles_ammo (dt : ℚ) (s : GameState) :
    (stepParticles dt s).ammo = s.ammo := rfl

theorem stepParticles_score (dt : ℚ) (s : GameState) :
    (stepParticles dt s).score = s.score := rfl

theorem stepParticles_lives (dt : ℚ) (s : GameState) :
    (stepParticles dt s).lives = s.lives := rfl

theorem stepParticles_time (dt : ℚ) (s : GameState) :
    (stepParticles dt s).time_left = s.time_left := rfl

theorem stepParticles_ducks (dt : ℚ) (s : GameState) :
    (stepParticles dt s).ducks = s.ducks := rfl

theorem stepParticles_go (dt : ℚ) (s : GameState) :
    (stepParticles dt s).game_over = s.game_over := rfl

theorem stepParticles_reason (dt : ℚ) (s : GameState) :
    (stepParticles dt s).over_reason = s.over_reason := rfl

theorem stepParticles_mx (dt : ℚ) (s : GameState) :
    (stepParticles dt s).mx = s.mx := rfl

theorem stepParticles_my (dt : ℚ) (s : GameState) :
    (stepParticles dt s).my = s.my := rfl

theorem stepParticles_particles (dt : ℚ) (s : GameState) :
    (stepParticles dt s).particles =
      (s.particles.filter (fun p => decide (0 < p.life))).map
        (Particle.update dt) := rfl

/-! ## The duck-update loop body -/

theorem duckStep_snd (o : Oracle) (dt : ℚ) (i : Nat) (s : GameState) (d : Duck) :
    (duckStep o dt i s d).2 = duckAdv o dt s.speed i d := by
  simp only [duckStep, duckAdv]
  split
  · rfl
  · split <;> rfl

theorem duckStep_fst_ammo (o : Oracle) (dt : ℚ) (i : Nat) (s : GameState)
    (d : Duck) : (duckStep o dt i s d).1.ammo = s.ammo := by
  simp only [duckStep]
  split
  · split <;> rfl
  · split <;> rfl

theorem duckStep_fst_score (o : Oracle) (dt : ℚ) (i : Nat) (s : GameState)
    (d : Duck) : (duckStep o dt i s d).1.score = s.score := by
  simp only [duckStep]
  split
  · split <;> rfl
  · split <;> rfl

theorem duckStep_fst_time (o : Oracle) (dt : ℚ) (i : Nat) (s : GameState)
    (d : Duck) : (duckStep o dt i s d).1.time_left = s.time_left := by
  simp only [duckStep]
  split
  · split <;> rfl
  · split <;> rfl

theorem duckStep_fst_speed (o : Oracle) (dt : ℚ) (i : Nat) (s : GameState)
    (d : Duck) : (duckStep o dt i s d).1.speed = s.speed := by
  simp only [duckStep]
  split
  · split <;> rfl
  · split <;> rfl

theorem duckStep_fst_mx (o : Oracle) (dt : ℚ) (i : Nat) (s : GameState)
    (d : Duck) : (duckStep o dt i s d).1.mx = s.mx := by
  simp only [duckStep]
  split
  · split <;> rfl
  · split <;> rfl

theorem duckStep_fst_my (o : Oracle) (dt : ℚ) (i : Nat) (s : GameState)
    (d : Duck) : (duckStep o dt i s d).1.my = s.my := by
  simp only [duckStep]
  split
  · split <;> rfl
  · split <;> rfl

theorem duckStep_fst_particles (o : Oracle) (dt : ℚ) (i : Nat) (s : GameState)
    (d : Duck) : (duckStep o dt i s d).1.particles = s.particles := by
  simp only [duckStep]
  split
  · split <;> rfl
  · split <;> rfl

theorem duckStep_fst_lives (o : Oracle) (dt : ℚ) (i : Nat) (s : GameState)
    (d : Duck) : (duckStep o dt i s d).1.lives =
      if escapedB o dt s.speed d then
        (if s.lives - 1 ≤ 0 then 0 else s.lives - 1)
      else s.lives := by
  simp only [duckStep, escapedB]
  split
  · split <;> rfl
  · split <;> rfl

theorem duckStep_fst_go (o : Oracle) (dt : ℚ) (i : Nat) (s : GameState)
    (d : Duck) : (duckStep o dt i s d).1.game_over =
      if escapedB o dt s.speed d = true ∧ s.lives - 1 ≤ 0 then true
      else s.game_over := by
  simp only [duckStep, escapedB]
  split <;> rename_i h
  · split <;> rename_i h2
    · rw [if_pos ⟨h, h2⟩]
    · rw [if_neg (fun hc => h2 hc.2)]
  · split <;> rw [if_neg (fun hc => h hc.1)]

theorem duckStep_fst_reason (o : Oracle) (dt : ℚ) (i : Nat) (s : GameState)
    (d : Duck) : (duckStep o dt i s d).1.over_reason =
      if escapedB o dt s.speed d = true ∧ s.lives - 1 ≤ 0 then Reason.gameOver
      else s.over_reason := by
  simp only [duckStep, escapedB]
  split <;> rename_i h
  · split <;> rename_i h2
    · rw [if_pos ⟨h, h2⟩]
    · rw [if_neg (fun hc => h2 hc.2)]
  · split <;> rw [if_neg (fun hc => h hc.1)]

/-! ## The duck-update loop as a whole -/

theorem duckFold_ammo (o : Oracle) (dt : ℚ) (ds : List Duck) :
    ∀ (i : Nat) (s : GameState), (duckFold o dt i s ds).1.ammo = s.ammo := by
  induction ds with
  | nil => intro i s; rfl
  | cons d rest ih =>
    intro i s
    simp only [duckFold]
    rw [ih, duckStep_fst_ammo]

theorem duckFold_score (o : Oracle) (dt : ℚ) (ds : List Duck) :
    ∀ (i : Nat) (s : GameState), (duckFold o dt i s ds).1.score = s.score := by
  induction ds with
  | nil => intro i s; rfl
  | cons d rest ih =>
    intro i s
    simp only [duckFold]
    rw [ih, duckStep_fst_score]

theorem duckFold_time (o : Oracle) (dt : ℚ) (ds : List Duck) :
    ∀ (i : Nat) (s : GameState),
      (duckFold o dt i s ds).1.time_left = s.time_left := by
  induction ds with
  | nil => intro i s; rfl
  | cons d rest ih =>
    intro i s
    simp only [duckFold]
    rw [ih, duckStep_fst_time]

theorem duckFold_speed (o : Oracle) (dt : ℚ) (ds : List Duck) :
    ∀ (i : Nat) (s : GameState), (duckFold o dt i s ds).1.speed = s.speed := by
  induction ds with
  | nil => intro i s; rfl
  | cons d rest ih =>
    intro i s
    simp only [duckFold]
    rw [ih, duckStep_fst_speed]

theorem duckFold_mx (o : Oracle) (dt : ℚ) (ds : List Duck) :
    ∀ (i : Nat) (s : GameState), (duckFold o dt i s ds).1.mx = s.mx := by
  induction ds with
  | nil => intro i s; rfl
  | cons d rest ih =>
    intro i s
    simp only [duckFold]
    rw [ih, duckStep_fst_mx]

theorem duckFold_my (o : Oracle) (dt : ℚ) (ds : List Duck) :
    ∀ (i : Nat) (s : GameState), (duckFold o dt i s ds).1.my = s.my := by
  induction ds with
  | nil => intro i s; rfl
  | cons d rest ih =>
    intro i s
    simp only [duckFold]
    rw [ih, duckStep_fst_my]

theorem duckFold_particles (o : Oracle) (dt : ℚ) (ds : List Duck) :
    ∀ (i : Nat) (s : GameState),
      (duckFold o dt i s ds).1.particles = s.particles := by
  induction ds with
  | nil => intro i s; rfl
  | cons d rest ih =>
    intro i s
    simp only [duckFold]
    rw [ih, duckStep_fst_particles]

theorem escCount_cons_pos (o : Oracle) (dt sp : ℚ) (d : Duck) (rest : List Duck)
    (h : escapedB o dt sp d = true) :
    escCount o dt sp (d :: rest) = escCount o dt sp rest + 1 := by
  simp [escCount, List.filter_cons, h]

theorem escCount_cons_neg (o : Oracle) (dt sp : ℚ) (d : Duck) (rest : List Duck)
    (h : ¬escapedB o dt sp d = true) :
    escCount o dt sp (d :: rest) = escCount o dt sp rest := by
  simp [escCount, List.filter_cons, h]

theorem duckFold_lives (o : Oracle) (dt : ℚ) (ds : List Duck) :
    ∀ (i : Nat) (s : GameState),
      (duckFold o dt i s ds).1.lives =
        livesAfter s.lives (escCount o dt s.speed ds) := by
  induction ds with
  | nil => intro i s; rfl
  | cons d rest ih =>
    intro i s
    simp only [duckFold]
    rw [ih, duckStep_fst_lives, duckStep_fst_speed]
    by_cases he : escapedB o dt s.speed d = true
    · rw [if_pos he, escCount_cons_pos o dt s.speed d rest he]
      simp only [livesAfter]
    · rw [if_neg he, escCount_cons_neg o dt s.speed d rest he]

theorem duckFold_snd (o : Oracle) (dt : ℚ) (ds : List Duck) :
    ∀ (i : Nat) (s : GameState),
      (duckFold o dt i s ds).2 = duckAdvList o dt s.speed i ds := by
  induction ds with
  | nil => intro i s; rfl
  | cons d rest ih =>
    intro i s
    simp only [duckFold, duckAdvList]
    rw [ih, duckStep_fst_speed, duckStep_snd]

theorem duckFold_absorb (o : Oracle) (dt : ℚ) (ds : List Duck) :
    ∀ (i : Nat) (s : GameState), s.lives = 0 → s.game_over = true →
      s.over_reason = Reason.gameOver →
      (duckFold o dt i s ds).1.lives = 0 ∧
      (duckFold o dt i s ds).1.game_over = true ∧
      (duckFold o dt i s ds).1.over_reason = Reason.gameOver := by
  induction ds with
  | nil => intro i s h1 h2 h3; exact ⟨h1, h2, h3⟩
  | cons d rest ih =>
    intro i s h1 h2 h3
    simp only [duckFold]
    refine ih (i + 1) (duckStep o dt i s d).1 ?_ ?_ ?_
    · rw [duckStep_fst_lives, h1]
      split
      · split <;> [rfl; omega]
      · rfl
    · rw [duckStep_fst_go, h2]
      split <;> rfl
    · rw [duckStep_fst_reason, h3]
      split <;> rfl

theorem duckFold_no_deplete (o : Oracle) (dt : ℚ) (ds : List Duck) :
    ∀ (i : Nat) (s : GameState),
      (escCount o dt s.speed ds : Int) < s.lives →
      (duckFold o dt i s ds).1.lives = s.lives - escCount o dt s.speed ds ∧
      (duckFold o dt i s ds).1.game_over = s.game_over ∧
      (duckFold o dt i s ds).1.over_reason = s.over_reason := by
  induction ds with
  | nil => intro i s _; exact ⟨by simp [duckFold, escCount], rfl, rfl⟩
  | cons d rest ih =>
    intro i s hlt
    simp only [duckFold]
    by_cases he : escapedB o dt s.speed d = true
    · rw [escCount_cons_pos o dt s.speed d rest he] at hlt
      have h2 : ¬(s.lives - 1 ≤ 0) := by push_cast at hlt; omega
      have hl : (duckStep o dt i s d).1.lives = s.lives - 1 := by
        rw [duckStep_fst_lives, if_pos he, if_neg h2]
      have hg : (duckStep o dt i s d).1.game_over = s.game_over := by
        rw [duckStep_fst_go, if_neg (fun hc => h2 hc.2)]
      have hr : (duckStep o dt i s d).1.over_reason = s.over_reason := by
        rw [duckStep_fst_reason, if_neg (fun hc => h2 hc.2)]
      have hs := duckStep_fst_speed o dt i s d
      obtain ⟨c1, c2, c3⟩ := ih (i + 1) (duckStep o dt i s d).1
        (by rw [hl, hs]; push_cast at hlt ⊢; omega)
      rw [hs] at c1
      refine ⟨?_, by rw [c2, hg], by rw [c3, hr]⟩
      rw [c1, hl, escCount_cons_pos o dt s.speed d rest he]
      push_cast
      ring
    · rw [escCount_cons_neg o dt s.speed d rest he] at hlt
      have hl : (duckStep o dt i s d).1.lives = s.lives := by
        rw [duckStep_fst_lives, if_neg he]
      have hg : (duckStep o dt i s d).1.game_over = s.game_over := by
        rw [duckStep_fst_go, if_neg (fun hc => he hc.1)]
      have hr : (duckStep o dt i s d).1.over_reason = s.over_reason := by
        rw [duckStep_fst_reason, if_neg (fun hc => he hc.1)]
      have hs := duckStep_fst_speed o dt i s d
      obtain ⟨c1, c2, c3⟩ := ih (i + 1) (duckStep o dt i s d).1
        (by rw [hl, hs]; exact hlt)
      rw [hs] at c1
      exact ⟨by rw [c1, hl, escCount_cons_neg o dt s.speed d rest he],
        by rw [c2, hg], by rw [c3, hr]⟩

theorem duckFold_deplete (o : Oracle) (dt : ℚ) (ds : List Duck) :
    ∀ (i : Nat) (s : GameState), 0 < s.lives →
      s.lives ≤ (escCount o dt s.speed ds : Int) →
      (duckFold o dt i s ds).1.lives = 0 ∧
      (duckFold o dt i s ds).1.game_over = true ∧
      (duckFold o dt i s ds).1.over_reason = Reason.gameOver := by
  induction ds with
  | nil =>
    intro i s hpos hle
    simp [escCount] at hle
    omega
  | cons d rest ih =>
    intro i s hpos hle
    simp only [duckFold]
    by_cases he : escapedB o dt s.speed d = true
    · rw [escCount_cons_pos o dt s.speed d rest he] at hle
      by_cases h1 : s.lives - 1 ≤ 0
      · have hl : (duckStep o dt i s d).1.lives = 0 := by
          rw [duckStep_fst_lives, if_pos he, if_pos h1]
        have hg : (duckStep o dt i s d).1.game_over = true := by
          rw [duckStep_fst_go, if_pos ⟨he, h1⟩]
        have hr : (duckStep o dt i s d).1.over_reason = Reason.gameOver := by
          rw [duckStep_fst_reason, if_pos ⟨he, h1⟩]
        exact duckFold_absorb o dt rest (i + 1) (duckStep o dt i s d).1 hl hg hr
      · have hl : (duckStep o dt i s d).1.lives = s.lives - 1 := by
          rw [duckStep_fst_lives, if_pos he, if_neg h1]
        have hs := duckStep_fst_speed o dt i s d
        exact ih (i + 1) (duckStep o dt i s d).1 (by rw [hl]; omega)
          (by rw [hl, hs]; push_cast at hle ⊢; omega)
    · rw [escCount_cons_neg o dt s.speed d rest he] at hle
      have hl : (duckStep o dt i s d).1.lives = s.lives := by
        rw [duckStep_fst_lives, if_neg he]
      have hs := duckStep_fst_speed o dt i s d
      exact ih (i + 1) (duckStep o dt i s d).1 (by rw [hl]; exact hpos)
        (by rw [hl, hs]; exact hle)

theorem duckAdvList_length (o : Oracle) (dt sp : ℚ) (ds : List Duck) :
    ∀ i : Nat, (duckAdvList o dt sp i ds).length = ds.length := by
  induction ds with
  | nil => intro i; rfl
  | cons d rest ih =>
    intro i
    simp only [duckAdvList, List.length_cons, ih]

theorem duckAdvList_getD (o : Oracle) (dt sp : ℚ) (ds : List Duck) :
    ∀ (i j : Nat), j < ds.length →
      (duckAdvList o dt sp i ds).getD j duck0 =
        duckAdv o dt sp (i + j) (ds.getD j duck0) := by
  induction ds with
  | nil => intro i j h; simp at h
  | cons d rest ih =>
    intro i j h
    cases j with
    | zero => simp [duckAdvList]
    | succ j =>
      simp only [duckAdvList, List.getD_cons_succ]
      rw [ih (i + 1) j (by simpa using h)]
      have : i + 1 + j = i + (j + 1) := by omega
      rw [this]

theorem stepDucks_ammo (o : Oracle) (dt : ℚ) (s : GameState) :
    (stepDucks o dt s).ammo = s.ammo := by
  simp only [stepDucks]
  exact duckFold_ammo o dt s.ducks 0 s

theorem stepDucks_score (o : Oracle) (dt : ℚ) (s : GameState) :
    (stepDucks o dt s).score = s.score := by
  simp only [stepDucks]
  exact duckFold_score o dt s.ducks 0 s

theorem stepDucks_time (o : Oracle) (dt : ℚ) (s : GameState) :
    (stepDucks o dt s).time_left = s.time_left := by
  simp only [stepDucks]
  exact duckFold_time o dt s.ducks 0 s

theorem stepDucks_speed (o : Oracle) (dt : ℚ) (s : GameState) :
    (stepDucks o dt s).speed = s.speed := by
  simp only [stepDucks]
  exact duckFold_speed o dt s.ducks 0 s

theorem stepDucks_mx (o : Oracle) (dt : ℚ) (s : GameState) :
    (stepDucks o dt s).mx = s.mx := by
  simp only [stepDucks]
  exact duckFold_mx o dt s.ducks 0 s

theorem stepDucks_my (o : Oracle) (dt : ℚ) (s : GameState) :
    (stepDucks o dt s).my = s.my := by
  simp only [stepDucks]
  exact duckFold_my o dt s.ducks 0 s

theorem stepDucks_particles (o : Oracle) (dt : ℚ) (s : GameState) :
    (stepDucks o dt s).particles = s.particles := by
  simp only [stepDucks]
  exact duckFold_particles o dt s.ducks 0 s

theorem stepDucks_lives (o : Oracle) (dt : ℚ) (s : GameState) :
    (stepDucks o dt s).lives =
      livesAfter s.lives (escCount o dt s.speed s.ducks) := by
  simp only [stepDucks]
  exact duckFold_lives o dt s.ducks 0 s

theorem stepDucks_ducks (o : Oracle) (dt : ℚ) (s : GameState) :
    (stepDucks o dt s).ducks = duckAdvList o dt s.speed 0 s.ducks := by
  simp only [stepDucks]
  exact duckFold_snd o dt s.ducks 0 s

theorem livesAfter_bounds (k : Nat) :
    ∀ l : Int, 0 ≤ l → 0 ≤ livesAfter l k ∧ livesAfter l k ≤ l := by
  induction k with
  | zero => intro l h; exact ⟨h, le_refl l⟩
  | succ k ih =>
    intro l h
    simp only [livesAfter]
    obtain ⟨h1, h2⟩ := ih (if l - 1 ≤ 0 then 0 else l - 1) (by split <;> omega)
    refine ⟨h1, le_trans h2 ?_⟩
    split <;> omega

theorem livesAfter_max (k : Nat) :
    ∀ l : Int, 0 ≤ l → livesAfter l k = max 0 (l - k) := by
  induction k with
  | zero =>
    intro l h
    simp only [livesAfter, Nat.cast_zero, sub_zero]
    omega
  | succ k ih =>
    intro l h
    simp only [livesAfter]
    rw [ih (if l - 1 ≤ 0 then 0 else l - 1) (by split <;> omega)]
    push_cast
    split <;> omega

theorem tick_live (o : Oracle) (inp : Input) (s : GameState)
    (h : s.game_over = false) : tick o inp s = tickCore o inp s := by
  simp [tick, h]

theorem tick_frozen (o : Oracle) (inp : Input) (s : GameState)
    (h : s.game_over = true) (hr : inp.restart = false) :
    tick o inp s = s := by
  simp [tick, h, hr]

theorem aliveCount_all (ds : List Duck)
    (h : ∀ d ∈ ds, d.alive = true ∧ d.hit = false) :
    aliveCount ds = ds.length := by
  unfold aliveCount
  rw [List.filter_eq_self.mpr]
  intro d hd
  obtain ⟨h1, h2⟩ := h d hd
  simp [h1, h2]

/-! ## The shot scan -/

theorem shootScan_len (px py : ℚ) (ds : List Duck) :
    (shootScan px py ds).1.length = ds.length := by
  induction ds with
  | nil => rfl
  | cons d rest ih =>
    simp only [shootScan]
    split
    · simp
    · simp [ih]

theorem shootScan_of_none (px py : ℚ) (ds : List Duck)
    (h : firstMatchIdx px py ds = none) : shootScan px py ds = (ds, false, none) := by
  induction ds with
  | nil => rfl
  | cons d rest ih =>
    simp only [firstMatchIdx] at h
    by_cases hm : duckMatch px py d = true
    · rw [if_pos hm] at h
      exact absurd h (by simp)
    · rw [if_neg hm] at h
      simp only [Option.map_eq_none'] at h
      simp only [shootScan, if_neg hm]
      rw [ih h]

theorem shootScan_of_some (px py : ℚ) (ds : List Duck) :
    ∀ i, firstMatchIdx px py ds = some i →
      (shootScan px py ds).2.1 = true ∧
      (shootScan px py ds).2.2 =
        some ((ds.getD i duck0).x, (ds.getD i duck0).y) ∧
      ∀ j, (shootScan px py ds).1.getD j duck0 =
        if j = i then ((ds.getD i duck0).shoot).2 else ds.getD j duck0 := by
  induction ds with
  | nil => intro i h; simp [firstMatchIdx] at h
  | cons d rest ih =>
    intro i h
    simp only [firstMatchIdx] at h
    by_cases hm : duckMatch px py d = true
    · rw [if_pos hm] at h
      have hi : i = 0 := by
        have := Option.some.inj h
        omega
      subst hi
      simp only [shootScan, if_pos hm]
      refine ⟨by simp, by simp, ?_⟩
      intro j
      cases j with
      | zero => simp
      | succ j => simp
    · rw [if_neg hm] at h
      simp only [Option.map_eq_some'] at h
      obtain ⟨a, ha, hai⟩ := h
      subst hai
      obtain ⟨c1, c2, c3⟩ := ih a ha
      simp only [shootScan, if_neg hm]
      refine ⟨c1, by simpa using c2, ?_⟩
      intro j
      cases j with
      | zero => simp
      | succ j =>
        simp only [List.getD_cons_succ]
        rw [c3 j]
        by_cases hj : j = a
        · rw [if_pos hj, if_pos (by omega)]
        · rw [if_neg hj, if_neg (by omega)]

theorem firstMatchIdx_spec (px py : ℚ) (ds : List Duck) :
    ∀ i, firstMatchIdx px py ds = some i →
      i < ds.length ∧ duckMatch px py (ds.getD i duck0) = true ∧
      ∀ j, j < i → duckMatch px py (ds.getD j duck0) = false := by
  induction ds with
  | nil => intro i h; simp [firstMatchIdx] at h
  | cons d rest ih =>
    intro i h
    simp only [firstMatchIdx] at h
    by_cases hm : duckMatch px py d = true
    · rw [if_pos hm] at h
      have hi : i = 0 := by
        have := Option.some.inj h
        omega
      subst hi
      exact ⟨by simp, by simpa using hm, fun j hj => absurd hj (by omega)⟩
    · rw [if_neg hm] at h
      simp only [Option.map_eq_some'] at h
      obtain ⟨a, ha, hai⟩ := h
      subst hai
      obtain ⟨c1, c2, c3⟩ := ih a ha
      refine ⟨by simp; omega, by simpa using c2, ?_⟩
      intro j hj
      cases j with
      | zero => simpa using (Bool.not_eq_true _).mp hm
      | succ j =>
        simp only [List.getD_cons_succ]
        exact c3 j (by omega)

theorem firstMatchIdx_none_spec (px py : ℚ) (ds : List Duck)
    (h : firstMatchIdx px py ds = none) :
    ∀ j, j < ds.length → duckMatch px py (ds.getD j duck0) = false := by
  induction ds with
  | nil => intro j hj; simp at hj
  | cons d rest ih =>
    intro j hj
    simp only [firstMatchIdx] at h
    by_cases hm : duckMatch px py d = true
    · rw [if_pos hm] at h
      exact absurd h (by simp)
    · rw [if_neg hm] at h
      simp only [Option.map_eq_none'] at h
      cases j with
      | zero => simpa using (Bool.not_eq_true _).mp hm
      | succ j =>
        simp only [List.getD_cons_succ]
        exact ih h j (by simpa using hj)

theorem clampX_bounds (x : Int) : 0 ≤ clampX x ∧ clampX x < WIN_W := by
  unfold clampX WIN_W
  omega

theorem clampY_bounds (y : Int) : 0 ≤ clampY y ∧ clampY y < WIN_H := by
  unfold clampY WIN_H
  omega

theorem duckFold_goinv (o : Oracle) (dt : ℚ) (ds : List Duck) :
    ∀ (i : Nat) (s : GameState),
      (s.game_over = false → s.over_reason = Reason.noneYet) →
      (s.game_over = true → s.over_reason ≠ Reason.noneYet) →
      ((duckFold o dt i s ds).1.game_over = false →
        (duckFold o dt i s ds).1.over_reason = Reason.noneYet) ∧
      ((duckFold o dt i s ds).1.game_over = true →
        (duckFold o dt i s ds).1.over_reason ≠ Reason.noneYet) := by
  induction ds with
  | nil => intro i s h1 h2; exact ⟨h1, h2⟩
  | cons d rest ih =>
    intro i s h1 h2
    simp only [duckFold]
    have hgo := duckStep_fst_go o dt i s d
    have hrs := duckStep_fst_reason o dt i s d
    by_cases hc : escapedB o dt s.speed d = true ∧ s.lives - 1 ≤ 0
    · rw [if_pos hc] at hgo hrs
      refine ih (i + 1) _ ?_ ?_
      · rw [hgo]; intro hf; exact absurd hf (by simp)
      · rw [hrs]; intro _; simp
    · rw [if_neg hc] at hgo hrs
      refine ih (i + 1) _ ?_ ?_
      · rw [hgo, hrs]; exact h1
      · rw [hgo, hrs]; exact h2

theorem stepMouse_score (inp : Input) (s : GameState) :
    (stepMouse inp s).score = s.score := rfl

theorem stepMouse_lives (inp : Input) (s : GameState) :
    (stepMouse inp s).lives = s.lives := rfl

theorem stepMouse_time (inp : Input) (s : GameState) :
    (stepMouse inp s).time_left = s.time_left := rfl

theorem stepMouse_speed (inp : Input) (s : GameState) :
    (stepMouse inp s).speed = s.speed := rfl

theorem stepMouse_particles (inp : Input) (s : GameState) :
    (stepMouse inp s).particles = s.particles := rfl

theorem stepMouse_go (inp : Input) (s : GameState) :
    (stepMouse inp s).game_over = s.game_over := rfl

theorem stepMouse_reason (inp : Input) (s : GameState) :
    (stepMouse inp s).over_reason = s.over_reason := rfl

theorem stepDucks_go_fold (o : Oracle) (dt : ℚ) (s : GameState) :
    (stepDucks o dt s).game_over = (duckFold o dt 0 s s.ducks).1.game_over := rfl

theorem stepDucks_reason_fold (o : Oracle) (dt : ℚ) (s : GameState) :
    (stepDucks o dt s).over_reason =
      (duckFold o dt 0 s s.ducks).1.over_reason := rfl

theorem duckAdv_of_escaped (o : Oracle) (dt sp : ℚ) (i : Nat) (d : Duck)
    (h : escapedB o dt sp d = true) :
    duckAdv o dt sp i d = (d.update o.sin dt sp).reset sp (o.resetR i) := by
  unfold escapedB at h
  simp only [duckAdv]
  rw [if_pos h]

theorem getD_mem_of_lt (ds : List Duck) :
    ∀ j, j < ds.length → ds.getD j duck0 ∈ ds := by
  induction ds with
  | nil => intro j h; simp at h
  | cons d rest ih =>
    intro j h
    cases j with
    | zero => simp
    | succ j =>
      simp only [List.getD_cons_succ, List.mem_cons]
      exact Or.inr (ih j (by simpa using h))

/-! ## Whole-frame composition facts -/

theorem tickCore_mx (o : Oracle) (inp : Input) (s : GameState) :
    (tickCore o inp s).mx = clampX (s.mx + inp.rel.1) := by
  unfold tickCore
  rw [stepParticles_mx, stepDucks_mx, stepAmmoCheck_mx, stepShoot_mx,
    stepTimer_mx, stepMouse_mx]

theorem tickCore_my (o : Oracle) (inp : Input) (s : GameState) :
    (tickCore o inp s).my = clampY (s.my + inp.rel.2) := by
  unfold tickCore
  rw [stepParticles_my, stepDucks_my, stepAmmoCheck_my, stepShoot_my,
    stepTimer_my, stepMouse_my]

theorem tickCore_ammo_eq (o : Oracle) (inp : Input) (s : GameState) :
    (tickCore o inp s).ammo =
      if inp.fire && decide (0 < s.ammo) then s.ammo - 1 else s.ammo := by
  unfold tickCore
  rw [stepParticles_ammo, stepDucks_ammo, stepAmmoCheck_ammo, stepShoot_ammo,
    stepTimer_ammo, stepMouse_ammo]

theorem tickCore_time_eq (o : Oracle) (inp : Input) (s : GameState) :
    (tickCore o inp s).time_left =
      if s.time_left - inp.dt ≤ 0 then 0 else s.time_left - inp.dt := by
  unfold tickCore
  rw [stepParticles_time, stepDucks_time, stepAmmoCheck_time, stepShoot_time,
    stepTimer_time, stepMouse_time]

theorem tickCore_score_chain (o : Oracle) (inp : Input) (s : GameState) :
    (tickCore o inp s).score =
      (stepShoot o inp.fire (stepTimer inp.dt (stepMouse inp s))).score := by
  unfold tickCore
  rw [stepParticles_score, stepDucks_score, stepAmmoCheck_score]

theorem tickCore_ducks_eq (o : Oracle) (inp : Input) (s : GameState) :
    (tickCore o inp s).ducks =
      duckAdvList o inp.dt
        (stepShoot o inp.fire (stepTimer inp.dt (stepMouse inp s))).speed 0
        (stepShoot o inp.fire (stepTimer inp.dt (stepMouse inp s))).ducks := by
  unfold tickCore
  rw [stepParticles_ducks, stepDucks_ducks, stepAmmoCheck_speed,
    stepAmmoCheck_ducks]

theorem tickCore_lives_eq (o : Oracle) (inp : Input) (s : GameState) :
    (tickCore o inp s).lives =
      livesAfter s.lives
        (escCount o inp.dt
          (stepShoot o inp.fire (stepTimer inp.dt (stepMouse inp s))).speed
          (stepShoot o inp.fire (stepTimer inp.dt (stepMouse inp s))).ducks) := by
  unfold tickCore
  rw [stepParticles_lives, stepDucks_lives, stepAmmoCheck_speed,
    stepAmmoCheck_ducks, stepAmmoCheck_lives, stepShoot_lives, stepTimer_lives,
    stepMouse_lives]

theorem tickCore_goinv (o : Oracle) (inp : Input) (t : GameState)
    (h1 : t.game_over = false → t.over_reason = Reason.noneYet)
    (h2 : t.game_over = true → t.over_reason ≠ Reason.noneYet) :
    ((tickCore o inp t).game_over = false →
      (tickCore o inp t).over_reason = Reason.noneYet) ∧
    ((tickCore o inp t).game_over = true →
      (tickCore o inp t).over_reason ≠ Reason.noneYet) := by
  unfold tickCore
  rw [stepParticles_go, stepParticles_reason, stepDucks_go_fold,
    stepDucks_reason_fold]
  apply duckFold_goinv
  · rw [stepAmmoCheck_go, stepAmmoCheck_reason]
    split
    · intro hf; exact absurd hf (by simp)
    · rw [stepShoot_go, stepShoot_reason, stepTimer_go, stepTimer_reason,
        stepMouse_go, stepMouse_reason]
      split
      · intro hf; exact absurd hf (by simp)
      · exact h1
  · rw [stepAmmoCheck_go, stepAmmoCheck_reason]
    split
    · intro _; simp
    · rw [stepShoot_go, stepShoot_reason, stepTimer_go, stepTimer_reason,
        stepMouse_go, stepMouse_reason]
      split
      · intro _; simp
      · exact h2

/-! ## Claim theorems -/

/-- C8: `Duck.shoot` on a target that is not flying (already hit, or no
longer alive) returns `False` and leaves every field unchanged; on a
flying target it returns `True`, marks it hit, and sets `hit_timer` to
the fixed frame count 20 — a constant tick count, taking no `dt` and
independent of real time. -/
theorem C8_shoot_contract (d : Duck) :
    Duck.shoot d =
      if d.alive && !d.hit then (true, { d with hit := true, hit_timer := 20 })
      else (false, d) := by
  cases hA : d.alive <;> cases hH : d.hit <;> simp [Duck.shoot, hA, hH]

/-- C5 counterexample: the claim reads the hitbox as a box of TOTAL
width `0.9 * size`.  The point `x = 144/5 = 28.8` lies farther from the
duck center than half of that claimed width (`0.45 * 48 = 21.6`), yet
`collides` accepts it: the code's `0.9 * size` and `0.6 * size` are
half-extents, so the box's total width is `1.8 * size`, not
`0.9 * size`. -/
theorem C5_total_width_cex :
    Duck.collides dC5 (144 / 5) 0 = true ∧
      ¬(|(144 / 5 : ℚ) - dC5.x| < (9 / 10) * dC5.size / 2) := by
  constructor
  · show (_ && _) = true
    rw [Bool.and_eq_true, decide_eq_true_eq, decide_eq_true_eq]
    constructor
    · rw [show (144 / 5 : ℚ) - dC5.x = 144 / 5 by norm_num [dC5, duckAt],
        abs_of_nonneg (by norm_num : (0 : ℚ) ≤ 144 / 5)]
      norm_num [dC5, duckAt]
    · rw [show (0 : ℚ) - dC5.y = 0 by norm_num [dC5, duckAt], abs_zero]
      norm_num [dC5, duckAt]
  · rw [show (144 / 5 : ℚ) - dC5.x = 144 / 5 by norm_num [dC5, duckAt],
      abs_of_nonneg (by norm_num : (0 : ℚ) ≤ 144 / 5)]
    norm_num [dC5, duckAt]

/-- C5 (amended): the collision test accepts exactly the points of the
open axis-aligned box centered on `(x, y)` with HALF-width `0.9 * size`
and HALF-height `0.6 * size` (total extents `1.8 * size` by
`1.2 * size`); and the shot scan acts on the collision test only for a
duck that is flying: the selected first-match duck is alive, unhit, and
colliding, with every earlier duck failing the match. -/
theorem C5_hitbox_geometry (d : Duck) (px py : ℚ) :
    (d.collides px py = true ↔
      (d.x - d.size * (9 / 10) < px ∧ px < d.x + d.size * (9 / 10) ∧
        d.y - d.size * (6 / 10) < py ∧ py < d.y + d.size * (6 / 10))) ∧
    (∀ (ds : List Duck) (i : Nat), firstMatchIdx px py ds = some i →
      (ds.getD i duck0).alive = true ∧ (ds.getD i duck0).hit = false ∧
        (ds.getD i duck0).collides px py = true ∧
        ∀ j, j < i → duckMatch px py (ds.getD j duck0) = false) := by
  constructor
  · unfold Duck.collides
    simp only [Bool.and_eq_true, decide_eq_true_eq, abs_lt]
    constructor
    · rintro ⟨⟨a1, a2⟩, b1, b2⟩
      exact ⟨by linarith, by linarith, by linarith, by linarith⟩
    · rintro ⟨a1, a2, b1, b2⟩
      exact ⟨⟨by linarith, by linarith⟩, by linarith, by linarith⟩
  · intro ds i h
    obtain ⟨_, hm, hpre⟩ := firstMatchIdx_spec px py ds i h
    have hm2 := hm
    unfold duckMatch at hm2
    simp only [Bool.and_eq_true, Bool.not_eq_true'] at hm2
    exact ⟨hm2.1.1, hm2.1.2, hm2.2, hpre⟩

/-- C5 witness: at the crosshair `(640, 360)` the one-duck pool of
`sC1w` first-matches index 0, and the theorem yields that this duck is
alive; the match hypothesis is discharged by evaluation. -/
theorem C5_hitbox_geometry_w :
    firstMatchIdx 640 360 sC1w.ducks = some 0 ∧
      (sC1w.ducks.getD 0 duck0).alive = true := by
  have hm : firstMatchIdx 640 360 sC1w.ducks = some 0 := by
    norm_num [firstMatchIdx, duckMatch, Duck.collides, sC1w, sC6, duckAt]
  exact ⟨hm, ((C5_hitbox_geometry duck0 640 360).2 sC1w.ducks 0 hm).1⟩

/-- C10: in every reachable state the accumulated, clamped crosshair
position lies inside `[0, WIN_W) × [0, WIN_H)`, for arbitrary pointer
deltas of any sign and magnitude. -/
theorem C10_reticle_in_bounds (s : GameState) (h : Reachable s) :
    0 ≤ s.mx ∧ s.mx < WIN_W ∧ 0 ≤ s.my ∧ s.my < WIN_H := by
  induction h with
  | init f =>
    refine ⟨?_, ?_, ?_, ?_⟩
    · exact (show (0 : Int) ≤ WIN_W / 2 by decide)
    · exact (show WIN_W / 2 < WIN_W by decide)
    · exact (show (0 : Int) ≤ WIN_H / 2 by decide)
    · exact (show WIN_H / 2 < WIN_H by decide)
  | step o inp s hs ih =>
    by_cases hg : s.game_over = true
    · by_cases hrr : inp.restart = true
      · have ht : tick o inp s = tickCore o inp (new_game o.restartR) := by
          simp [tick, hg, hrr, new_game]
        rw [ht, tickCore_mx, tickCore_my]
        exact ⟨(clampX_bounds _).1, (clampX_bounds _).2, (clampY_bounds _).1,
          (clampY_bounds _).2⟩
      · have hr' : inp.restart = false := by
          revert hrr; cases inp.restart <;> simp
        rw [tick_frozen o inp s hg hr']
        exact ih
    · have hg' : s.game_over = false := by
        revert hg; cases s.game_over <;> simp
      rw [tick_live o inp s hg', tickCore_mx, tickCore_my]
      exact ⟨(clampX_bounds _).1, (clampX_bounds _).2, (clampY_bounds _).1,
        (clampY_bounds _).2⟩

/-- C10 witness: the bounds at the concrete fresh state. -/
theorem C10_reticle_in_bounds_w :
    0 ≤ (new_game o0.restartR).mx ∧ (new_game o0.restartR).mx < WIN_W ∧
      0 ≤ (new_game o0.restartR).my ∧ (new_game o0.restartR).my < WIN_H :=
  C10_reticle_in_bounds (new_game o0.restartR) (Reachable.init o0.restartR)

theorem tickCore_bounds (o : Oracle) (inp : Input) (t : GameState)
    (h1 : 0 ≤ t.ammo) (h2 : t.ammo ≤ STARTING_AMMO) (h3 : 0 ≤ t.lives)
    (h4 : t.lives ≤ STARTING_LIVES) :
    0 ≤ (tickCore o inp t).ammo ∧ (tickCore o inp t).ammo ≤ STARTING_AMMO ∧
      0 ≤ (tickCore o inp t).lives ∧
      (tickCore o inp t).lives ≤ STARTING_LIVES ∧
      0 ≤ (tickCore o inp t).time_left := by
  refine ⟨?_, ?_, ?_, ?_, ?_⟩
  · rw [tickCore_ammo_eq]
    split <;> rename_i h
    · simp only [Bool.and_eq_true, decide_eq_true_eq] at h
      omega
    · exact h1
  · rw [tickCore_ammo_eq]
    unfold STARTING_AMMO at h2 ⊢
    split <;> omega
  · rw [tickCore_lives_eq]
    exact (livesAfter_bounds _ _ h3).1
  · rw [tickCore_lives_eq]
    exact le_trans (livesAfter_bounds _ _ h3).2 h4
  · rw [tickCore_time_eq]
    split <;> rename_i h
    · exact le_refl 0
    · have := not_le.mp h
      linarith

/-- C4: in every reachable state (the post-tick state of every tick, and
the fresh state), `0 <= ammo <= STARTING_AMMO`,
`0 <= lives <= STARTING_LIVES`, and `timeRemaining >= 0`. -/
theorem C4_resource_bounds (s : GameState) (h : Reachable s) :
    0 ≤ s.ammo ∧ s.ammo ≤ STARTING_AMMO ∧ 0 ≤ s.lives ∧
      s.lives ≤ STARTING_LIVES ∧ 0 ≤ s.time_left := by
  induction h with
  | init f =>
    refine ⟨?_, ?_, ?_, ?_, ?_⟩
    · exact (show (0 : Int) ≤ STARTING_AMMO by decide)
    · exact le_refl _
    · exact (show (0 : Int) ≤ STARTING_LIVES by decide)
    · exact le_refl _
    · exact (show (0 : ℚ) ≤ GAME_DURATION by decide)
  | step o inp s hs ih =>
    obtain ⟨i1, i2, i3, i4, i5⟩ := ih
    by_cases hg : s.game_over = true
    · by_cases hrr : inp.restart = true
      · have ht : tick o inp s = tickCore o inp (new_game o.restartR) := by
          simp [tick, hg, hrr, new_game]
        rw [ht]
        exact tickCore_bounds o inp (new_game o.restartR)
          (show (0 : Int) ≤ STARTING_AMMO by decide) (le_refl _)
          (show (0 : Int) ≤ STARTING_LIVES by decide) (le_refl _)
      · have hr' : inp.restart = false := by
          revert hrr; cases inp.restart <;> simp
        rw [tick_frozen o inp s hg hr']
        exact ⟨i1, i2, i3, i4, i5⟩
    · have hg' : s.game_over = false := by
        revert hg; cases s.game_over <;> simp
      rw [tick_live o inp s hg']
      exact tickCore_bounds o inp s i1 i2 i3 i4

/-- C4 witness: the bounds at the concrete fresh state. -/
theorem C4_resource_bounds_w :
    0 ≤ (new_game o0.restartR).ammo ∧
      (new_game o0.restartR).ammo ≤ STARTING_AMMO ∧
      0 ≤ (new_game o0.restartR).lives ∧
      (new_game o0.restartR).lives ≤ STARTING_LIVES ∧
      0 ≤ (new_game o0.restartR).time_left :=
  C4_resource_bounds (new_game o0.restartR) (Reachable.init o0.restartR)

/-- C3 counterexample: in the state `sC3` (no ammo, three flying ducks,
1/100 s left) a one-second frame first ends the round via the timer —
`stepTimer` sets the TIME reason — but the same tick's out-of-ammo check
then overwrites the reason with OUT OF AMMO, so the endReason set when
the round transitioned is not the endReason the tick ends with,
contradicting the claim that an endReason once set is never overwritten
within the same tick. -/
theorem C3_same_tick_overwrite_cex :
    sC3.game_over = false ∧ sC3.time_left - inpQuiet.dt ≤ 0 ∧
      (stepTimer inpQuiet.dt (stepMouse inpQuiet sC3)).over_reason =
        Reason.timeUp ∧
      (tick o0 inpQuiet sC3).over_reason = Reason.outOfAmmo ∧
      (tick o0 inpQuiet sC3).over_reason ≠ Reason.timeUp := by
  have h4 : (tick o0 inpQuiet sC3).over_reason = Reason.outOfAmmo := by
    norm_num [tick, tickCore, stepMouse, stepTimer, stepShoot, stepAmmoCheck,
      stepDucks, stepParticles, duckFold, duckStep, Duck.update, Duck.moveAdv,
      Duck.is_offscreen, Duck.reset, escapedB, aliveCount, shootScan,
      duckMatch, Duck.collides, Duck.shoot, shotHit, burst, mkParticle,
      Particle.update, o0, rr0, pr0, sC3, duckAt, inpQuiet, FLAP_SPEED, WIN_W,
      WIN_H, MAX_DUCKS, SPEED_INCREMENT, MAX_SPEED, clampX, clampY]
  refine ⟨rfl, by norm_num [sC3, inpQuiet], ?_, h4, by rw [h4]; simp⟩
  norm_num [stepTimer, stepMouse, sC3, inpQuiet]

/-- C3 (amended): in every reachable state the endReason is set (not the
initial empty reason) exactly when the phase is Ended, and once Ended a
tick without a restart leaves the state untouched; however, WITHIN
the single tick that ends the round a later termination check can
overwrite the endReason before the tick completes (see the
counterexample), so uniqueness of the endReason holds only from the end
of that tick onward. -/
theorem C3_end_reason_invariant :
    (∀ s : GameState, Reachable s →
      (s.game_over = true ↔ s.over_reason ≠ Reason.noneYet)) ∧
    (∀ (o : Oracle) (inp : Input) (s : GameState), s.game_over = true →
      inp.restart = false → tick o inp s = s) := by
  constructor
  · intro s h
    have key : (s.game_over = false → s.over_reason = Reason.noneYet) ∧
        (s.game_over = true → s.over_reason ≠ Reason.noneYet) := by
      induction h with
      | init f =>
        exact ⟨fun _ => rfl, fun hf => absurd hf (by simp [new_game])⟩
      | step o inp s hs ih =>
        by_cases hg : s.game_over = true
        · by_cases hrr : inp.restart = true
          · have ht : tick o inp s = tickCore o inp (new_game o.restartR) := by
              simp [tick, hg, hrr, new_game]
            rw [ht]
            exact tickCore_goinv o inp (new_game o.restartR) (fun _ => rfl)
              (fun hf => absurd hf (by simp [new_game]))
          · have hr' : inp.restart = false := by
              revert hrr; cases inp.restart <;> simp
            rw [tick_frozen o inp s hg hr']
            exact ih
        · have hg' : s.game_over = false := by
            revert hg; cases s.game_over <;> simp
          rw [tick_live o inp s hg']
          exact tickCore_goinv o inp s ih.1 ih.2
    constructor
    · exact key.2
    · intro hne
      by_cases hgo : s.game_over = true
      · exact hgo
      · have hgo' : s.game_over = false := by
          revert hgo; cases s.game_over <;> simp
        exact absurd (key.1 hgo') hne
  · intro o inp s hg hr
    exact tick_frozen o inp s hg hr

/-- C3 witness: the invariant holds at the concrete fresh state, and a
concrete ended state is left untouched by a restart-free frame. -/
theorem C3_end_reason_invariant_w :
    ((new_game o0.restartR).game_over = true ↔
      (new_game o0.restartR).over_reason ≠ Reason.noneYet) ∧
      tick o0 inpQuiet sEnded = sEnded :=
  ⟨C3_end_reason_invariant.1 (new_game o0.restartR) (Reachable.init o0.restartR),
    C3_end_reason_invariant.2 o0 inpQuiet sEnded rfl rfl⟩

/-- C6 counterexample: a fire trigger on the very tick in which the
round transitions to Ended (the timer expires this frame) is NOT a
no-op: with 5 ammo and a duck under the crosshair, the frame both ends
the round and still resolves the shot — ammo drops, score rises, and
particles are emitted — because shot resolution runs after the timer
check without re-checking the phase. -/
theorem C6_transition_tick_cex :
    sC6.game_over = false ∧ sC6.time_left - inpC6.dt ≤ 0 ∧
      inpC6.fire = true ∧ (tick o0 inpC6 sC6).game_over = true ∧
      (tick o0 inpC6 sC6).ammo = sC6.ammo - 1 ∧
      (tick o0 inpC6 sC6).score = sC6.score + 100 ∧
      (tick o0 inpC6 sC6).particles.length = 26 := by
  refine ⟨rfl, by norm_num [sC6, inpC6], rfl, ?_, ?_, ?_, ?_⟩ <;>
  norm_num [tick, tickCore, stepMouse, stepTimer, stepShoot, stepAmmoCheck,
    stepDucks, stepParticles, duckFold, duckStep, Duck.update, Duck.moveAdv,
    Duck.is_offscreen, Duck.reset, escapedB, aliveCount, shootScan, duckMatch,
    Duck.collides, Duck.shoot, shotHit, burst, mkParticle, Particle.update,
    o0, rr0, pr0, sC6, duckAt, inpC6, FLAP_SPEED, WIN_W, WIN_H, MAX_DUCKS,
    SPEED_INCREMENT, MAX_SPEED, clampX, clampY, List.range_succ]

/-- C6 (amended): a fire trigger arriving with `ammo == 0`, or on a tick
that already begins with the phase Ended (no restart pressed), is a
silent no-op — the frame's result is identical with or without the
trigger: same ammo, score, speed, particles, and targets.  (A fire
trigger on the very tick in which the round transitions to Ended is
still resolved normally; see the counterexample.) -/
theorem C6_fire_is_noop (o : Oracle) (inp : Input) (s : GameState)
    (h : s.ammo = 0 ∨ s.game_over = true) (hr : inp.restart = false)
    (b : Bool) :
    tick o { inp with fire := b } s = tick o { inp with fire := false } s := by
  by_cases hg : s.game_over = true
  · rw [tick_frozen o { inp with fire := b } s hg hr,
      tick_frozen o { inp with fire := false } s hg hr]
  · have hg' : s.game_over = false := by
      revert hg; cases s.game_over <;> simp
    have h0 : s.ammo = 0 := by
      rcases h with h | h
      · exact h
      · exact absurd h hg
    rw [tick_live o { inp with fire := b } s hg',
      tick_live o { inp with fire := false } s hg']
    show stepParticles inp.dt (stepDucks o inp.dt (stepAmmoCheck
        (stepShoot o b (stepTimer inp.dt (stepMouse inp s))))) =
      stepParticles inp.dt (stepDucks o inp.dt (stepAmmoCheck
        (stepShoot o false (stepTimer inp.dt (stepMouse inp s)))))
    have hXa : (stepTimer inp.dt (stepMouse inp s)).ammo = 0 := by
      rw [stepTimer_ammo, stepMouse_ammo]; exact h0
    rw [stepShoot_of_no_ammo o b _ hXa, stepShoot_of_no_ammo o false _ hXa]

/-- C6 witness: with no ammo, the concrete frame with a fire trigger
equals the frame without it. -/
theorem C6_fire_is_noop_w :
    sC3.ammo = 0 ∧
      tick o0 { inpQuiet with fire := true } sC3 =
        tick o0 { inpQuiet with fire := false } sC3 :=
  ⟨rfl, C6_fire_is_noop o0 inpQuiet sC3 (Or.inl rfl) rfl true⟩

theorem ammoPhase_ends (o : Oracle) (dt : ℚ) (X : GameState)
    (ha : X.ammo = 0) (hlen : X.ducks.length = MAX_DUCKS)
    (hfly : ∀ d ∈ X.ducks, d.alive = true ∧ d.hit = false)
    (hesc : (escCount o dt X.speed X.ducks : Int) < X.lives) :
    (stepParticles dt (stepDucks o dt (stepAmmoCheck X))).game_over = true ∧
      (stepParticles dt (stepDucks o dt (stepAmmoCheck X))).over_reason =
        Reason.outOfAmmo := by
  have hcond : X.ammo = 0 ∧ aliveCount X.ducks = MAX_DUCKS :=
    ⟨ha, by rw [aliveCount_all X.ducks hfly]; exact hlen⟩
  have hDgo : (stepAmmoCheck X).game_over = true := by
    rw [stepAmmoCheck_go, if_pos hcond]
  have hDrs : (stepAmmoCheck X).over_reason = Reason.outOfAmmo := by
    rw [stepAmmoCheck_reason, if_pos hcond]
  rw [stepParticles_go, stepParticles_reason, stepDucks_go_fold,
    stepDucks_reason_fold]
  obtain ⟨_, c2, c3⟩ := duckFold_no_deplete o dt (stepAmmoCheck X).ducks 0
    (stepAmmoCheck X)
    (by rw [stepAmmoCheck_lives, stepAmmoCheck_ducks, stepAmmoCheck_speed]
        exact hesc)
  exact ⟨by rw [c2, hDgo], by rw [c3, hDrs]⟩

/-- C2 counterexample: with no ammo, one life, and all three ducks
flying — the claim's exact precondition — the tick does end the round,
but the final endReason is GAME OVER (a duck escapes in the same tick
and depletes the last life, overwriting OUT OF AMMO), not the claimed
OutOfAmmo. -/
theorem C2_depletion_overwrite_cex :
    sC2.ammo = 0 ∧ sC2.ducks.length = MAX_DUCKS ∧
      (∀ d ∈ sC2.ducks, d.alive = true ∧ d.hit = false) ∧
      sC2.game_over = false ∧
      (tick o0 inpQuiet sC2).over_reason = Reason.gameOver ∧
      (tick o0 inpQuiet sC2).over_reason ≠ Reason.outOfAmmo := by
  have h5 : (tick o0 inpQuiet sC2).over_reason = Reason.gameOver := by
    norm_num [tick, tickCore, stepMouse, stepTimer, stepShoot, stepAmmoCheck,
      stepDucks, stepParticles, duckFold, duckStep, Duck.update, Duck.moveAdv,
      Duck.is_offscreen, Duck.reset, escapedB, aliveCount, shootScan,
      duckMatch, Duck.collides, Duck.shoot, shotHit, burst, mkParticle,
      Particle.update, o0, rr0, pr0, sC2, duckAt, inpQuiet, FLAP_SPEED, WIN_W,
      WIN_H, MAX_DUCKS, SPEED_INCREMENT, MAX_SPEED, clampX, clampY]
  refine ⟨rfl, rfl, by decide, rfl, h5, by rw [h5]; simp⟩

/-- C2 (amended): whenever the tick starts Playing with `ammo == 0` and
every pooled target flying (or the last shot is fired this tick and
misses every target), the tick transitions the round to Ended and sets
endReason = OutOfAmmo; that reason survives to the end of the tick
provided the same tick's escapes leave lives positive (as in a fresh
round) — otherwise a simultaneous life depletion overwrites it with
NoLivesLeft (see the counterexample). -/
theorem C2_out_of_ammo (o : Oracle) (inp : Input) (s : GameState)
    (hgo : s.game_over = false) (hlen : s.ducks.length = MAX_DUCKS)
    (hfly : ∀ d ∈ s.ducks, d.alive = true ∧ d.hit = false)
    (hesc : (escCount o inp.dt s.speed s.ducks : Int) < s.lives)
    (hammo : s.ammo = 0 ∨ (s.ammo = 1 ∧ inp.fire = true ∧
      firstMatchIdx ((clampX (s.mx + inp.rel.1)) : ℚ)
        ((clampY (s.my + inp.rel.2)) : ℚ) s.ducks = none)) :
    (tick o inp s).game_over = true ∧
      (tick o inp s).over_reason = Reason.outOfAmmo := by
  rw [tick_live o inp s hgo]
  have hBa : (stepTimer inp.dt (stepMouse inp s)).ammo = s.ammo := by
    rw [stepTimer_ammo, stepMouse_ammo]
  unfold tickCore
  rcases hammo with h0 | ⟨h1, hf, hnone⟩
  · have hid : stepShoot o inp.fire (stepTimer inp.dt (stepMouse inp s)) =
        stepTimer inp.dt (stepMouse inp s) :=
      stepShoot_of_no_ammo o inp.fire _ (by rw [hBa]; exact h0)
    rw [hid]
    refine ammoPhase_ends o inp.dt _ ?_ ?_ ?_ ?_
    · rw [hBa]; exact h0
    · rw [stepTimer_ducks, stepMouse_ducks]; exact hlen
    · rw [stepTimer_ducks, stepMouse_ducks]; exact hfly
    · rw [stepTimer_ducks, stepMouse_ducks, stepTimer_speed, stepMouse_speed,
        stepTimer_lives, stepMouse_lives]
      exact hesc
  · have hguard :
        (inp.fire && decide (0 < (stepTimer inp.dt (stepMouse inp s)).ammo)) =
          true := by
      rw [hBa, h1, hf]
      decide
    have hscan := shootScan_of_none ((clampX (s.mx + inp.rel.1)) : ℚ)
      ((clampY (s.my + inp.rel.2)) : ℚ) s.ducks hnone
    have hXd : (stepShoot o inp.fire
        (stepTimer inp.dt (stepMouse inp s))).ducks = s.ducks := by
      rw [stepShoot_ducks, if_pos hguard, stepTimer_mx, stepMouse_mx,
        stepTimer_my, stepMouse_my, stepTimer_ducks, stepMouse_ducks, hscan]
    have hXs : (stepShoot o inp.fire
        (stepTimer inp.dt (stepMouse inp s))).speed = s.speed := by
      rw [stepShoot_speed, if_pos hguard, stepTimer_mx, stepMouse_mx,
        stepTimer_my, stepMouse_my, stepTimer_ducks, stepMouse_ducks, hscan]
      simp [stepTimer_speed, stepMouse_speed]
    have hXa : (stepShoot o inp.fire
        (stepTimer inp.dt (stepMouse inp s))).ammo = 0 := by
      rw [stepShoot_ammo, if_pos hguard, hBa, h1]
      decide
    have hXl : (stepShoot o inp.fire
        (stepTimer inp.dt (stepMouse inp s))).lives = s.lives := by
      rw [stepShoot_lives, stepTimer_lives, stepMouse_lives]
    refine ammoPhase_ends o inp.dt _ hXa ?_ ?_ ?_
    · rw [hXd]; exact hlen
    · rw [hXd]; exact hfly
    · rw [hXd, hXs, hXl]; exact hesc

/-- C2 witness: in the concrete state with no ammo, six lives, and three
flying mid-field ducks, the frame ends the round with OUT OF AMMO. -/
theorem C2_out_of_ammo_w :
    sC2w.ammo = 0 ∧ sC2w.game_over = false ∧
      (tick o0 inpQuiet sC2w).game_over = true ∧
      (tick o0 inpQuiet sC2w).over_reason = Reason.outOfAmmo := by
  have h := C2_out_of_ammo o0 inpQuiet sC2w rfl rfl (by decide)
    (by norm_num [escCount, escapedB, Duck.update, Duck.moveAdv,
      Duck.is_offscreen, sC2w, sC2, duckAt, o0, rr0, inpQuiet, FLAP_SPEED,
      WIN_W, List.filter])
    (Or.inl rfl)
  exact ⟨rfl, rfl, h.1, h.2⟩

/-- C9 counterexample: the code prunes the particle set BEFORE advancing
it, so the post-tick set can hold a particle whose remaining life has
just gone non-positive: a particle with 1/10 s of life survives a
one-second frame with life `-9/10 <= 0`, contradicting the claim that
the post-tick active set contains no particle with
`remainingLife <= 0`. -/
theorem C9_stale_particle_cex :
    (tick o0 inpQuiet sC9).particles.length = 1 ∧
      ∀ p ∈ (tick o0 inpQuiet sC9).particles, p.life ≤ 0 := by
  have h : (tick o0 inpQuiet sC9).particles =
      [{ x := 0, y := 0, vx := 0, vy := 400, life := -(9 / 10),
         max_life := 1 / 10, r := 3 }] := by
    norm_num [tick, tickCore, stepMouse, stepTimer, stepShoot, stepAmmoCheck,
      stepDucks, stepParticles, duckFold, duckStep, Duck.update, Duck.moveAdv,
      Duck.is_offscreen, Duck.reset, escapedB, aliveCount, shootScan,
      duckMatch, Duck.collides, Duck.shoot, shotHit, burst, mkParticle,
      Particle.update, o0, rr0, pr0, sC9, pLow, duckAt, inpQuiet, FLAP_SPEED,
      WIN_W, WIN_H, MAX_DUCKS, SPEED_INCREMENT, MAX_SPEED, clampX, clampY]
  rw [h]
  refine ⟨rfl, ?_⟩
  intro p hp
  simp only [List.mem_singleton] at hp
  subst hp
  norm_num

/-- C9 (amended): each live tick the particle phase first DROPS every
particle with `remainingLife <= 0` and then advances the survivors by
`dt`: the post-tick set is exactly the pre-advancement set (old
particles plus this frame's shot bursts) pruned and then advanced, it is
a finite list, and each surviving particle stems from a particle with
positive pre-advancement life whose life decreased by exactly `dt`
(hence monotonically for `dt >= 0`); particles whose life crosses zero
during the advancement remain until the next tick's prune (see the
counterexample). -/
theorem C9_particle_phase (o : Oracle) (inp : Input) (s : GameState)
    (hgo : s.game_over = false) (hdt : 0 ≤ inp.dt) : C9prop o inp s := by
  have heq : (tick o inp s).particles =
      ((s.particles ++
          shotBursts o inp.fire (stepTimer inp.dt (stepMouse inp s))).filter
        (fun p => decide (0 < p.life))).map (Particle.update inp.dt) := by
    rw [tick_live o inp s hgo]
    unfold tickCore
    rw [stepParticles_particles, stepDucks_particles, stepAmmoCheck_particles,
      stepShoot_particles, stepTimer_particles, stepMouse_particles]
  refine ⟨heq, ?_⟩
  intro p hp
  rw [heq] at hp
  simp only [List.mem_map, List.mem_filter, decide_eq_true_eq] at hp
  obtain ⟨q, ⟨_, hqpos⟩, hq⟩ := hp
  subst hq
  refine ⟨q, hqpos, rfl, rfl, ?_⟩
  show q.life - inp.dt ≤ q.life
  linarith

/-- C9 witness: the particle-phase description at the concrete state
holding one particle. -/
theorem C9_particle_phase_w :
    sC9.game_over = false ∧ (0 : ℚ) ≤ inpQuiet.dt ∧ C9prop o0 inpQuiet sC9 :=
  ⟨rfl, by norm_num [inpQuiet],
    C9_particle_phase o0 inpQuiet sC9 rfl (by norm_num [inpQuiet])⟩

/-- C7: in the duck-update phase of a tick whose pool is all alive (the
pool invariant of the loop), the pool size is constant; lives drop by
exactly one per flying duck that has advanced off-screen, clamped at
zero; if the escapes leave lives positive the phase and reason are
untouched, while depletion ends the round with the GAME OVER (no lives
left) reason and lives exactly 0; every escaped duck was not hit, was
alive, and is respawned in place at the current shared speed; and a duck
in the Hit state never counts as escaped, hence never costs a life. -/
theorem C7_escape_and_respawn (o : Oracle) (dt : ℚ) (s : GameState)
    (hall : ∀ d ∈ s.ducks, d.alive = true) (hl : 0 ≤ s.lives) :
    C7prop o dt s := by
  refine ⟨?_, ?_, ?_, ?_, ?_, ?_⟩
  · rw [stepDucks_ducks, duckAdvList_length]
  · rw [stepDucks_lives, livesAfter_max _ _ hl]
  · intro hlt
    exact duckFold_no_deplete o dt s.ducks 0 s hlt
  · intro hpos hle
    exact duckFold_deplete o dt s.ducks 0 s hpos hle
  · intro j hj hesc
    have hhit : ((s.ducks.getD j duck0).update o.sin dt s.speed).hit = false :=
      (escapedB_elim o dt s.speed _ hesc).2
    have hhit0 : (s.ducks.getD j duck0).hit = false := by
      rw [update_hit_eq] at hhit
      exact hhit
    have halive :
        ((s.ducks.getD j duck0).update o.sin dt s.speed).alive = true := by
      rw [update_alive_of_hit_false _ _ _ _ hhit0]
      exact hall _ (getD_mem_of_lt s.ducks j hj)
    refine ⟨hhit, halive, ?_⟩
    rw [stepDucks_ducks, duckAdvList_getD o dt s.speed s.ducks 0 j hj,
      Nat.zero_add, duckAdv_of_escaped o dt s.speed j _ hesc]
  · intro j hj hhit
    unfold escapedB
    rw [hhit]
    simp

/-- C7 witness: the escape-phase description at a concrete state with
one duck about to cross the off-screen threshold. -/
theorem C7_escape_and_respawn_w :
    (∀ d ∈ sC7w.ducks, d.alive = true) ∧ 0 ≤ sC7w.lives ∧
      C7prop o0 1 sC7w :=
  ⟨by decide, by decide, C7_escape_and_respawn o0 1 sC7w (by decide) (by decide)⟩

/-- C1: on a tick that starts Playing with a fire trigger and ammo
available, ammo drops by exactly 1; score rises by exactly 0 or 100 and
by 100 precisely when some duck matches; the pool size is unchanged; at
most one duck — the first in pool-index order that is flying and whose
collision test at the clamped crosshair succeeds — ends the tick hit,
and every other duck that was flying is still flying after the tick,
even if it also overlapped the crosshair. -/
theorem C1_shot_resolution (o : Oracle) (inp : Input) (s : GameState)
    (hgo : s.game_over = false) (hf : inp.fire = true) (ha : 0 < s.ammo) :
    C1prop o inp s := by
  have htick : tick o inp s = tickCore o inp s := tick_live o inp s hgo
  have hBa : (stepTimer inp.dt (stepMouse inp s)).ammo = s.ammo := by
    rw [stepTimer_ammo, stepMouse_ammo]
  have hguard :
      (inp.fire && decide (0 < (stepTimer inp.dt (stepMouse inp s)).ammo)) =
        true := by
    rw [hBa, hf]
    simp only [Bool.true_and, decide_eq_true_eq]
    exact ha
  have hXd : (stepShoot o inp.fire
      (stepTimer inp.dt (stepMouse inp s))).ducks =
      (shootScan ((clampX (s.mx + inp.rel.1)) : ℚ)
        ((clampY (s.my + inp.rel.2)) : ℚ) s.ducks).1 := by
    rw [stepShoot_ducks, if_pos hguard, stepTimer_mx, stepMouse_mx,
      stepTimer_my, stepMouse_my, stepTimer_ducks, stepMouse_ducks]
  have hXsc : (stepShoot o inp.fire
      (stepTimer inp.dt (stepMouse inp s))).score =
      (match (shootScan ((clampX (s.mx + inp.rel.1)) : ℚ)
          ((clampY (s.my + inp.rel.2)) : ℚ) s.ducks).2.2 with
        | some _ => s.score + 100
        | none => s.score) := by
    rw [stepShoot_score, if_pos hguard, stepTimer_mx, stepMouse_mx,
      stepTimer_my, stepMouse_my, stepTimer_ducks, stepMouse_ducks,
      stepTimer_score, stepMouse_score]
  refine ⟨?_, ?_, ?_, ?_, ?_⟩
  · rw [htick, tickCore_ammo_eq,
      if_pos (by rw [hf]; simp only [Bool.true_and, decide_eq_true_eq]; exact ha)]
  · rw [htick, tickCore_score_chain, hXsc]
    rcases (shootScan ((clampX (s.mx + inp.rel.1)) : ℚ)
        ((clampY (s.my + inp.rel.2)) : ℚ) s.ducks).2.2 with _ | hp
    · exact Or.inl rfl
    · exact Or.inr rfl
  · rw [htick, tickCore_ducks_eq, duckAdvList_length, hXd, shootScan_len]
  · intro i hi
    obtain ⟨hlen_i, hmatch, _⟩ := firstMatchIdx_spec _ _ s.ducks i hi
    obtain ⟨_, hs2, hs3⟩ := shootScan_of_some _ _ s.ducks i hi
    have hdalive : (s.ducks.getD i duck0).alive = true := by
      have hm2 := hmatch
      unfold duckMatch at hm2
      simp only [Bool.and_eq_true] at hm2
      exact hm2.1.1
    refine ⟨?_, ?_, ?_⟩
    · rw [htick, tickCore_score_chain, hXsc, hs2]
    · rw [htick, tickCore_ducks_eq, hXd,
        duckAdvList_getD o inp.dt _ _ 0 i (by rw [shootScan_len]; exact hlen_i),
        Nat.zero_add, hs3 i, if_pos rfl,
        shoot_of_match _ _ (s.ducks.getD i duck0) hmatch]
      exact duckAdv_hit_of_shot o inp.dt _ i _ hdalive rfl
        (show (1 : Int) < 20 by decide)
    · intro j hji hjal hjht
      rw [htick, tickCore_ducks_eq, hXd]
      by_cases hjlen : j < s.ducks.length
      · rw [duckAdvList_getD o inp.dt _ _ 0 j
          (by rw [shootScan_len]; exact hjlen), Nat.zero_add, hs3 j,
          if_neg hji]
        exact ⟨duckAdv_alive _ _ _ _ _, duckAdv_hit_of_flying _ _ _ _ _ hjht⟩
      · have hlen2 : (duckAdvList o inp.dt
            (stepShoot o inp.fire (stepTimer inp.dt (stepMouse inp s))).speed 0
            (shootScan ((clampX (s.mx + inp.rel.1)) : ℚ)
              ((clampY (s.my + inp.rel.2)) : ℚ) s.ducks).1).length ≤ j := by
          rw [duckAdvList_length, shootScan_len]
          omega
        rw [List.getD_eq_default _ _ hlen2]
        exact ⟨rfl, rfl⟩
  · intro hnone
    have hscan := shootScan_of_none _ _ s.ducks hnone
    refine ⟨?_, ?_⟩
    · rw [htick, tickCore_score_chain, hXsc, hscan]
    · intro j hjal hjht
      rw [htick, tickCore_ducks_eq, hXd, hscan]
      by_cases hjlen : j < s.ducks.length
      · rw [duckAdvList_getD o inp.dt _ _ 0 j hjlen, Nat.zero_add]
        exact ⟨duckAdv_alive _ _ _ _ _, duckAdv_hit_of_flying _ _ _ _ _ hjht⟩
      · have hlen2 : (duckAdvList o inp.dt
            (stepShoot o inp.fire (stepTimer inp.dt (stepMouse inp s))).speed 0
            (s.ducks, false, (none : Option (ℚ × ℚ))).1).length ≤ j := by
          rw [duckAdvList_length]
          simpa using hjlen
        rw [List.getD_eq_default _ _ hlen2]
        exact ⟨rfl, rfl⟩

/-- C1 witness: the shot-resolution description at a concrete live state
with ammo and a duck under the crosshair. -/
theorem C1_shot_resolution_w :
    sC1w.game_over = false ∧ inpC6.fire = true ∧ 0 < sC1w.ammo ∧
      C1prop o0 inpC6 sC1w :=
  ⟨rfl, rfl, by decide, C1_shot_resolution o0 inpC6 sC1w rfl rfl (by decide)⟩

end DuckHunt
